import Mathlib

/-!
Verification model of the raytracer-rs rendering core.

Real-number scalars stand in for f64 (exact real arithmetic, the usual
idealisation); the bounding-box module additionally models the IEEE special
values (infinities, NaN) that the source manufactures on purpose
(Bounds::empty uses inverted infinities), via the type Fp below.
-/

namespace RayTrace

noncomputable section

/-- EPSILON from core/floats.rs. -/
def EPSILON : ℝ := 1 / 100000

/-- float_equal from core/floats.rs: (a - b).abs() < EPSILON. -/
def float_equal (a b : ℝ) : Prop := |a - b| < EPSILON

instance : DecidablePred fun p : ℝ × ℝ => float_equal p.1 p.2 := fun _ => by
  unfold float_equal; infer_instance

instance float_equal.dec (a b : ℝ) : Decidable (float_equal a b) := by
  unfold float_equal; infer_instance

/-- Tuple from core/tuples.rs: x, y, z plus the homogeneous w coordinate. -/
structure Tuple where
  x : ℝ
  y : ℝ
  z : ℝ
  w : ℝ
deriving DecidableEq

namespace Tuple

/-- Tuple::point: w = 1. -/
def point (x y z : ℝ) : Tuple := ⟨x, y, z, 1⟩

/-- Tuple::vector: w = 0. -/
def vector (x y z : ℝ) : Tuple := ⟨x, y, z, 0⟩

/-- Componentwise addition (impl Add for Tuple). -/
def add (a b : Tuple) : Tuple := ⟨a.x + b.x, a.y + b.y, a.z + b.z, a.w + b.w⟩

/-- Componentwise subtraction (impl Sub for Tuple). -/
def sub (a b : Tuple) : Tuple := ⟨a.x - b.x, a.y - b.y, a.z - b.z, a.w - b.w⟩

/-- Negation (impl Neg for Tuple: vector(0,0,0) - self). -/
def neg (a : Tuple) : Tuple := ⟨0 - a.x, 0 - a.y, 0 - a.z, 0 - a.w⟩

/-- Scalar multiplication (impl Mul of f64 for Tuple). -/
def smul (a : Tuple) (s : ℝ) : Tuple := ⟨a.x * s, a.y * s, a.z * s, a.w * s⟩

instance : Add Tuple := ⟨add⟩
instance : Sub Tuple := ⟨sub⟩
instance : Neg Tuple := ⟨neg⟩
instance : HMul Tuple ℝ Tuple := ⟨smul⟩

/-- Tuple::dot. -/
def dot (a b : Tuple) : ℝ := a.x * b.x + a.y * b.y + a.z * b.z + a.w * b.w

/-- Tuple::magnitude (includes w, as the source does). -/
def magnitude (a : Tuple) : ℝ := Real.sqrt (a.x ^ 2 + a.y ^ 2 + a.z ^ 2 + a.w ^ 2)

/-- Tuple::normalize: divide every component by the magnitude. -/
def normalize (a : Tuple) : Tuple :=
  ⟨a.x / a.magnitude, a.y / a.magnitude, a.z / a.magnitude, a.w / a.magnitude⟩

/-- Tuple::reflect: self - normal * 2 * dot(self, normal). -/
def reflect (a normal : Tuple) : Tuple := a - normal * (2 * a.dot normal)

end Tuple

/-- Color from core/color.rs. -/
structure Color where
  red : ℝ
  green : ℝ
  blue : ℝ
deriving DecidableEq

namespace Color

def black : Color := ⟨0, 0, 0⟩

def white : Color := ⟨1, 1, 1⟩

/-- Componentwise addition. -/
def add (a b : Color) : Color := ⟨a.red + b.red, a.green + b.green, a.blue + b.blue⟩

/-- Componentwise subtraction. -/
def sub (a b : Color) : Color := ⟨a.red - b.red, a.green - b.green, a.blue - b.blue⟩

/-- Scalar multiplication. -/
def smul (a : Color) (s : ℝ) : Color := ⟨a.red * s, a.green * s, a.blue * s⟩

/-- Hadamard (componentwise) product, impl Mul of Color for Color. -/
def hadamard (a b : Color) : Color :=
  ⟨a.red * b.red, a.green * b.green, a.blue * b.blue⟩

instance : Add Color := ⟨add⟩
instance : Sub Color := ⟨sub⟩
instance : HMul Color ℝ Color := ⟨smul⟩
instance : Mul Color := ⟨hadamard⟩

end Color

/-- Matrix4: the 4x4 f64 matrix of core/matrices.rs, modelled as a Mathlib
matrix over the reals.  The file core/matrices.rs is not present in the
snapshot; per the spec it is a given value-type library of 4x4 matrices with
multiplication, identity, transpose and inverse, so the Mathlib operations
stand in for it (the nonsingular inverse is the adjugate-over-determinant
construction the spec assumes; every transform used by the claims is
invertible by construction). -/
def Matrix4 : Type := Matrix (Fin 4) (Fin 4) ℝ

instance : Mul Matrix4 := inferInstanceAs (Mul (Matrix (Fin 4) (Fin 4) ℝ))
instance : One Matrix4 := inferInstanceAs (One (Matrix (Fin 4) (Fin 4) ℝ))
instance : Inv Matrix4 := inferInstanceAs (Inv (Matrix (Fin 4) (Fin 4) ℝ))
instance : Monoid Matrix4 := inferInstanceAs (Monoid (Matrix (Fin 4) (Fin 4) ℝ))

namespace Matrix4

/-- Matrix4::identity. -/
def identity : Matrix4 := 1

/-- Matrix4::translate. -/
def translate (x y z : ℝ) : Matrix4 :=
  Matrix.of !![1, 0, 0, x; 0, 1, 0, y; 0, 0, 1, z; 0, 0, 0, 1]

/-- Matrix4::scale. -/
def scale (x y z : ℝ) : Matrix4 :=
  Matrix.of !![x, 0, 0, 0; 0, y, 0, 0; 0, 0, z, 0; 0, 0, 0, 1]

/-- Matrix-times-tuple application (impl Mul of Tuple for Matrix4). -/
def apply (m : Matrix4) (t : Tuple) : Tuple :=
  ⟨m 0 0 * t.x + m 0 1 * t.y + m 0 2 * t.z + m 0 3 * t.w,
   m 1 0 * t.x + m 1 1 * t.y + m 1 2 * t.z + m 1 3 * t.w,
   m 2 0 * t.x + m 2 1 * t.y + m 2 2 * t.z + m 2 3 * t.w,
   m 3 0 * t.x + m 3 1 * t.y + m 3 2 * t.z + m 3 3 * t.w⟩

/-- Matrix4::transpose. -/
def transpose (m : Matrix4) : Matrix4 := Matrix.transpose m

end Matrix4

/-- Ray from rendering/rays.rs: an origin point and a direction vector. -/
structure Ray where
  origin : Tuple
  direction : Tuple

namespace Ray

/-- Ray::position: origin + direction * time. -/
def position (r : Ray) (time : ℝ) : Tuple := r.origin + r.direction * time

/-- Ray::transform: apply a matrix to origin and direction. -/
def transform (r : Ray) (m : Matrix4) : Ray :=
  ⟨m.apply r.origin, m.apply r.direction⟩

end Ray

/-- Fp: an f64 value as the bounding-box module sees it: a real number, one
of the two infinities, or NaN.  Bounds::empty manufactures the infinities on
purpose, so this module cannot be modelled with plain reals. -/
inductive Fp where
  | nan : Fp
  | inf : Fp
  | ninf : Fp
  | fin : ℝ → Fp
deriving DecidableEq

namespace Fp

/-- IEEE subtraction on the fragment the bounds module exercises. -/
def sub : Fp → Fp → Fp
  | nan, _ => nan
  | _, nan => nan
  | inf, inf => nan
  | inf, _ => inf
  | ninf, ninf => nan
  | ninf, _ => ninf
  | fin _, inf => ninf
  | fin _, ninf => inf
  | fin a, fin b => fin (a - b)

/-- IEEE multiplication (0 * inf = NaN). -/
def mul : Fp → Fp → Fp
  | nan, _ => nan
  | _, nan => nan
  | inf, inf => inf
  | inf, ninf => ninf
  | ninf, inf => ninf
  | ninf, ninf => inf
  | inf, fin b => if b = 0 then nan else if b < 0 then ninf else inf
  | ninf, fin b => if b = 0 then nan else if b < 0 then inf else ninf
  | fin a, inf => if a = 0 then nan else if a < 0 then ninf else inf
  | fin a, ninf => if a = 0 then nan else if a < 0 then inf else ninf
  | fin a, fin b => fin (a * b)

/-- IEEE division (inf / inf = NaN, finite / inf = 0, x / 0 = signed inf). -/
def div : Fp → Fp → Fp
  | nan, _ => nan
  | _, nan => nan
  | inf, inf => nan
  | inf, ninf => nan
  | ninf, inf => nan
  | ninf, ninf => nan
  | inf, fin b => if b < 0 then ninf else inf
  | ninf, fin b => if b < 0 then inf else ninf
  | fin _, inf => fin 0
  | fin _, ninf => fin 0
  | fin a, fin b =>
      if b = 0 then (if a = 0 then nan else if a < 0 then ninf else inf)
      else fin (a / b)

/-- IEEE absolute value. -/
def abs : Fp → Fp
  | nan => nan
  | inf => inf
  | ninf => inf
  | fin a => fin |a|

/-- IEEE less-or-equal: every comparison against NaN is false. -/
def le : Fp → Fp → Bool
  | nan, _ => false
  | _, nan => false
  | ninf, _ => true
  | _, ninf => false
  | _, inf => true
  | inf, _ => false
  | fin a, fin b => decide (a ≤ b)

/-- IEEE strict less-than: every comparison against NaN is false. -/
def lt : Fp → Fp → Bool
  | nan, _ => false
  | _, nan => false
  | ninf, ninf => false
  | ninf, _ => true
  | _, ninf => false
  | inf, _ => false
  | _, inf => true
  | fin a, fin b => decide (a < b)

/-- IEEE greater-than, as the source writes tmin > tmax. -/
def gt (a b : Fp) : Bool := lt b a

/-- IEEE greater-or-equal, as the source writes abs >= 1e-10. -/
def ge (a b : Fp) : Bool := le b a

/-- Rust f64::max: if one argument is NaN the other is returned. -/
def max : Fp → Fp → Fp
  | nan, b => b
  | a, nan => a
  | inf, _ => inf
  | _, inf => inf
  | ninf, b => b
  | a, ninf => a
  | fin a, fin b => fin (Max.max a b)

/-- Rust f64::min: if one argument is NaN the other is returned. -/
def min : Fp → Fp → Fp
  | nan, b => b
  | a, nan => a
  | ninf, _ => ninf
  | _, ninf => ninf
  | inf, b => b
  | a, inf => a
  | fin a, fin b => fin (Min.min a b)

/-- f64::is_infinite. -/
def isInfinite : Fp → Bool
  | inf => true
  | ninf => true
  | _ => false

/-- The finite value carried, used only on branches where the source has
already established finiteness (junk value 0 elsewhere). -/
def toReal : Fp → ℝ
  | fin a => a
  | _ => 0

/-- IEEE addition on the fragment the shape code exercises. -/
def add : Fp → Fp → Fp
  | nan, _ => nan
  | _, nan => nan
  | inf, ninf => nan
  | inf, _ => inf
  | ninf, inf => nan
  | ninf, _ => ninf
  | fin _, inf => inf
  | fin _, ninf => ninf
  | fin a, fin b => fin (a + b)

end Fp

/-- A point with possibly non-finite coordinates, as stored in Bounds. -/
structure FpTuple where
  x : Fp
  y : Fp
  z : Fp
deriving DecidableEq

/-- Coerce an exact-real point to the f64 view (always finite). -/
def Tuple.toFp (t : Tuple) : FpTuple := ⟨.fin t.x, .fin t.y, .fin t.z⟩

/-- A ray as the f64 bounding-box code sees it (components may be special). -/
structure FpRay where
  origin : FpTuple
  direction : FpTuple

/-- Coerce an exact-real ray to the f64 view. -/
def Ray.toFp (r : Ray) : FpRay := ⟨r.origin.toFp, r.direction.toFp⟩

/-- Bounds from geometry/bounds.rs: an axis-aligned box given by min and max
extents (possibly infinite, possibly inverted). -/
structure Bounds where
  min : FpTuple
  max : FpTuple
deriving DecidableEq

namespace Bounds

/-- Bounds::empty: inverted infinities, the merge identity. -/
def empty : Bounds :=
  ⟨⟨.inf, .inf, .inf⟩, ⟨.ninf, .ninf, .ninf⟩⟩

/-- Bounds::infinite. -/
def infinite : Bounds :=
  ⟨⟨.ninf, .ninf, .ninf⟩, ⟨.inf, .inf, .inf⟩⟩

/-- Bounds::add_point: expand min down and max up componentwise. -/
def add_point (b : Bounds) (p : FpTuple) : Bounds :=
  ⟨⟨b.min.x.min p.x, b.min.y.min p.y, b.min.z.min p.z⟩,
   ⟨b.max.x.max p.x, b.max.y.max p.y, b.max.z.max p.z⟩⟩

/-- Bounds::merge: add the other box's two corners. -/
def merge (b other : Bounds) : Bounds :=
  (b.add_point other.min).add_point other.max

/-- Bounds::transform: infinite bounds stay infinite (avoiding NaN); finite
bounds transform all 8 corners and wrap them in a fresh box. -/
def transform (b : Bounds) (matrix : Matrix4) : Bounds :=
  if b.min.x.isInfinite || b.min.y.isInfinite || b.min.z.isInfinite
      || b.max.x.isInfinite || b.max.y.isInfinite || b.max.z.isInfinite then
    infinite
  else
    let mn := Tuple.point b.min.x.toReal b.min.y.toReal b.min.z.toReal
    let mx := Tuple.point b.max.x.toReal b.max.y.toReal b.max.z.toReal
    let corners : List Tuple :=
      [mn,
       Tuple.point mn.x mn.y mx.z,
       Tuple.point mn.x mx.y mn.z,
       Tuple.point mn.x mx.y mx.z,
       Tuple.point mx.x mn.y mn.z,
       Tuple.point mx.x mn.y mx.z,
       Tuple.point mx.x mx.y mn.z,
       mx]
    corners.foldl (fun acc c => acc.add_point (matrix.apply c).toFp) empty

/-- Bounds::check_axis: slab entry and exit parameters on one axis, using a
multiplication by infinity when the direction component is below 1e-10. -/
def check_axis (origin direction mn mx : Fp) : Fp × Fp :=
  let tmin_numerator := mn.sub origin
  let tmax_numerator := mx.sub origin
  let p :=
    if direction.abs.ge (.fin (1 / 10 ^ 10)) then
      (tmin_numerator.div direction, tmax_numerator.div direction)
    else
      (tmin_numerator.mul .inf, tmax_numerator.mul .inf)
  if p.1.gt p.2 then (p.2, p.1) else p

/-- Bounds::intersects: slab test over the three axes. -/
def intersects (b : Bounds) (ray : FpRay) : Bool :=
  let xt := check_axis ray.origin.x ray.direction.x b.min.x b.max.x
  let yt := check_axis ray.origin.y ray.direction.y b.min.y b.max.y
  let zt := check_axis ray.origin.z ray.direction.z b.min.z b.max.z
  let tmin := (xt.1.max yt.1).max zt.1
  let tmax := (xt.2.min yt.2).min zt.2
  tmin.le tmax

end Bounds

/-- PatternKind from scene/patterns.rs (the cfg(test)-only Test variant is
omitted: it is not compiled into the library). -/
inductive PatternKind where
  | stripe (color_a color_b : Color)
  | gradient (color_a color_b : Color)
  | ring (color_a color_b : Color)
  | checkers (color_a color_b : Color)
deriving DecidableEq

/-- Pattern from scene/patterns.rs: a transform plus a kind. -/
structure Pattern where
  transform : Matrix4
  kind : PatternKind

namespace Pattern

/-- Pattern::stripe constructor. -/
def stripe (color_a color_b : Color) : Pattern := ⟨1, .stripe color_a color_b⟩

/-- Pattern::gradient constructor. -/
def gradient (color_a color_b : Color) : Pattern := ⟨1, .gradient color_a color_b⟩

/-- Pattern::ring constructor. -/
def ring (color_a color_b : Color) : Pattern := ⟨1, .ring color_a color_b⟩

/-- Pattern::checkers constructor. -/
def checkers (color_a color_b : Color) : Pattern := ⟨1, .checkers color_a color_b⟩

/-- stripe_color_at: floor(x) % 2 == 0 picks color_a.  Rust's float
remainder of the integer-valued floor(x) by 2.0 vanishes exactly when that
integer is even, which is the Int.emod test below. -/
def stripe_color_at (point : Tuple) (color_a color_b : Color) : Color :=
  if (⌊point.x⌋ : ℤ) % 2 = 0 then color_a else color_b

/-- gradient_color_at: linear blend by x clamped to the unit interval. -/
def gradient_color_at (point : Tuple) (color_a color_b : Color) : Color :=
  let distance := color_b - color_a
  let fraction := Min.min (Max.max point.x 0) 1
  color_a + distance * fraction

/-- ring_color_at: floor of the radial distance in the x-z plane mod 2. -/
def ring_color_at (point : Tuple) (color_a color_b : Color) : Color :=
  if (⌊Real.sqrt (point.x ^ 2 + point.z ^ 2)⌋ : ℤ) % 2 = 0 then color_a else color_b

/-- checkers_color_at: parity of the sum of the floors of the coordinates
nudged by 1e-6; the i32 bit test (x+y+z) & 1 == 0 is evenness. -/
def checkers_color_at (point : Tuple) (color_a color_b : Color) : Color :=
  let eps : ℝ := 1 / 10 ^ 6
  let x : ℤ := ⌊point.x + eps⌋
  let y : ℤ := ⌊point.y + eps⌋
  let z : ℤ := ⌊point.z + eps⌋
  if (x + y + z) % 2 = 0 then color_a else color_b

/-- Pattern::color_at: dispatch on the kind. -/
def color_at (p : Pattern) (point : Tuple) : Color :=
  match p.kind with
  | .stripe a b => stripe_color_at point a b
  | .gradient a b => gradient_color_at point a b
  | .ring a b => ring_color_at point a b
  | .checkers a b => checkers_color_at point a b

end Pattern

/-- Material from scene/materials.rs. -/
structure Material where
  color : Color
  ambient : ℝ
  diffuse : ℝ
  specular : ℝ
  shininess : ℝ
  reflectivity : ℝ
  transparency : ℝ
  refractive_index : ℝ
  pattern : Option Pattern

/-- MaterialBuilder from scene/materials.rs. -/
structure MaterialBuilder where
  color : Color
  ambient : ℝ
  diffuse : ℝ
  specular : ℝ
  shininess : ℝ
  reflectivity : ℝ
  transparency : ℝ
  refractive_index : ℝ
  pattern : Option Pattern

namespace MaterialBuilder

/-- MaterialBuilder::new: the default field values. -/
def new : MaterialBuilder :=
  ⟨Color.white, 1 / 10, 9 / 10, 9 / 10, 200, 0, 0, 1, none⟩

/-- MaterialBuilder::build: panics (modelled as none) when ambient, diffuse,
specular or shininess is negative, otherwise carries every field over. -/
def build (b : MaterialBuilder) : Option Material :=
  if b.ambient < 0 ∨ b.diffuse < 0 ∨ b.specular < 0 ∨ b.shininess < 0 then
    none
  else
    some ⟨b.color, b.ambient, b.diffuse, b.specular, b.shininess,
      b.reflectivity, b.transparency, b.refractive_index, b.pattern⟩

end MaterialBuilder

namespace Material

/-- Material::default, the non-panicking value of builder().build(). -/
def default : Material :=
  ⟨Color.white, 1 / 10, 9 / 10, 9 / 10, 200, 0, 0, 1, none⟩

end Material

/-- PointLight from scene/lights.rs (file absent from the snapshot; the spec
gives it as position plus intensity color, as does the legacy lights.rs). -/
structure PointLight where
  position : Tuple
  intensity : Color

/-- The fields every Object variant carries: local transform, cached world
transform, material (geometry/sphere.rs and friends; the non-owning parent
back-reference is represented by the path-addressed operations below). -/
structure ShapeCore where
  transformation : Matrix4
  world_transformation : Matrix4
  material : Material

/-- The extra parameters of cylinders and cones (minimum, maximum, closed);
the bounds default to the IEEE infinities, hence Fp. -/
structure CylParams where
  minimum : Fp
  maximum : Fp
  closed : Bool

/-- Object from rendering/objects.rs: the closed shape union.  A group owns
its children. -/
inductive Object where
  | sphere (core : ShapeCore)
  | plane (core : ShapeCore)
  | cube (core : ShapeCore)
  | cylinder (core : ShapeCore) (params : CylParams)
  | cone (core : ShapeCore) (params : CylParams)
  | group (core : ShapeCore) (children : List Object)

namespace Object

/-- The shared field block of any variant. -/
def core : Object → ShapeCore
  | sphere c => c
  | plane c => c
  | cube c => c
  | cylinder c _ => c
  | cone c _ => c
  | group c _ => c

/-- Object::transformation (Transformable). -/
def transformation (o : Object) : Matrix4 := o.core.transformation

/-- Object::world_transformation. -/
def world_transformation (o : Object) : Matrix4 := o.core.world_transformation

/-- Object::material (HasMaterial). -/
def material (o : Object) : Material := o.core.material

/-- The owned children of a group (empty for every other variant). -/
def childrenOf : Object → List Object
  | group _ cs => cs
  | _ => []

/-- Whether the node is a Group (whose local_normal_at is the panic
branch). -/
def isGroup : Object → Bool
  | group _ _ => true
  | _ => false

end Object

/-- Intersection from rendering/intersections.rs: a parameter t plus a
reference to the hit object.  The Rust reference is modelled by the path of
child indices from the world's object list to the node (objRef), so that
std::ptr::eq is path equality, together with the referenced node's value. -/
structure Intersection where
  t : ℝ
  objRef : List ℕ
  obj : Object

/-- Intersection::sort_intersections and the group-sort: a stable ascending
sort of plain t values (the comparator is total on the reals). -/
def sort_floats (l : List ℝ) : List ℝ := List.insertionSort (· ≤ ·) l

/-- The stable ascending-by-t sort used by World::intersect and by the group
branch of intersect_with_object. -/
def sort_by_t (l : List Intersection) : List Intersection :=
  List.insertionSort (fun a b => a.t ≤ b.t) l

/-- Sphere::local_intersect from geometry/sphere.rs: the quadratic on the
unit sphere; both roots, sorted. -/
def sphere_local_intersect (ray : Ray) : List ℝ :=
  let sphere_to_ray := ray.origin - Tuple.point 0 0 0
  let a := ray.direction.dot ray.direction
  let b := 2 * ray.direction.dot sphere_to_ray
  let c := sphere_to_ray.dot sphere_to_ray - 1
  let discriminant := b ^ 2 - 4 * a * c
  if discriminant < 0 then []
  else
    let t1 := (-b - Real.sqrt discriminant) / (2 * a)
    let t2 := (-b + Real.sqrt discriminant) / (2 * a)
    if t1 ≤ t2 then [t1, t2] else [t2, t1]

/-- Sphere::local_normal_at: the point minus the origin point. -/
def sphere_local_normal_at (point : Tuple) : Tuple := point - Tuple.point 0 0 0

/-- Plane::local_intersect.  Modelled from the spec: geometry/planes.rs is
absent from the snapshot; spec 4.1: a ray parallel to the xz-plane
(|direction.y| < EPSILON) yields no hit, otherwise the single root
t = -origin.y / direction.y. -/
def plane_local_intersect (ray : Ray) : List ℝ :=
  if |ray.direction.y| < EPSILON then []
  else [-ray.origin.y / ray.direction.y]

/-- Plane::local_normal_at: the constant (0,1,0) (spec 4.1). -/
def plane_local_normal_at (_point : Tuple) : Tuple := Tuple.vector 0 1 0

/-- Cube::check_axis from geometry/cubes.rs.  The else-branch multiplies the
finite numerators by f64::INFINITY, so the slab parameters are Fp values. -/
def cube_check_axis (origin direction : ℝ) : Fp × Fp :=
  let tmin_numerator := -1 - origin
  let tmax_numerator := 1 - origin
  let p : Fp × Fp :=
    if |direction| ≥ EPSILON then
      (.fin (tmin_numerator / direction), .fin (tmax_numerator / direction))
    else
      ((Fp.fin tmin_numerator).mul .inf, (Fp.fin tmax_numerator).mul .inf)
  if p.1.gt p.2 then (p.2, p.1) else p

/-- Cube::local_intersect: the slab method.  The returned parameters are
finite for every ray that hits the cube through the division branch on some
axis; a non-finite slab parameter has no exact-real image and is collapsed
by toReal (those rays are parallel to all slabs they are inside of). -/
def cube_local_intersect (ray : Ray) : List ℝ :=
  let xt := cube_check_axis ray.origin.x ray.direction.x
  let yt := cube_check_axis ray.origin.y ray.direction.y
  let tmin := xt.1.max yt.1
  let tmax := xt.2.min yt.2
  if tmin.gt tmax then []
  else
    let zt := cube_check_axis ray.origin.z ray.direction.z
    let tmin2 := tmin.max zt.1
    let tmax2 := tmax.min zt.2
    if tmin2.gt tmax2 then [] else [tmin2.toReal, tmax2.toReal]

/-- Cube::local_normal_at: the axis of largest absolute coordinate, ties
broken x then y then z by the epsilon comparisons of the source. -/
def cube_local_normal_at (point : Tuple) : Tuple :=
  let maxc := Max.max (Max.max |point.x| |point.y|) |point.z|
  if abs (maxc - |point.x|) < EPSILON then Tuple.vector point.x 0 0
  else if abs (maxc - |point.y|) < EPSILON then Tuple.vector 0 point.y 0
  else Tuple.vector 0 0 point.z

/-- Cylinder::check_cap: radial distance within the unit disk at t. -/
def cylinder_check_cap (ray : Ray) (t : ℝ) : Prop :=
  let x := ray.origin.x + t * ray.direction.x
  let z := ray.origin.z + t * ray.direction.z
  x ^ 2 + z ^ 2 ≤ 1

instance (ray : Ray) (t : ℝ) : Decidable (cylinder_check_cap ray t) := by
  unfold cylinder_check_cap; infer_instance

/-- Cylinder::intersect_caps.  The cap parameters divide through the Fp
minimum/maximum (infinite for an unbounded cylinder); a non-finite cap
parameter is collapsed by toReal. -/
def cylinder_intersect_caps (params : CylParams) (ray : Ray) : List ℝ :=
  if params.closed = false ∨ float_equal ray.direction.y 0 then []
  else
    let t1 := ((params.minimum.sub (.fin ray.origin.y)).div (.fin ray.direction.y)).toReal
    let t2 := ((params.maximum.sub (.fin ray.origin.y)).div (.fin ray.direction.y)).toReal
    (if cylinder_check_cap ray t1 then [t1] else [])
      ++ (if cylinder_check_cap ray t2 then [t2] else [])

/-- Cylinder::local_intersect from geometry/cylinders.rs. -/
def cylinder_local_intersect (params : CylParams) (ray : Ray) : List ℝ :=
  let a := ray.direction.x ^ 2 + ray.direction.z ^ 2
  if float_equal a 0 then
    (if params.closed then cylinder_intersect_caps params ray else [])
  else
    let b := 2 * ray.origin.x * ray.direction.x + 2 * ray.origin.z * ray.direction.z
    let c := ray.origin.x ^ 2 + ray.origin.z ^ 2 - 1
    let discriminant := b ^ 2 - 4 * a * c
    if discriminant < 0 then []
    else
      let sqrt_disc := Real.sqrt discriminant
      let denom := 2 * a
      let u0 := (-b - sqrt_disc) / denom
      let u1 := (-b + sqrt_disc) / denom
      let t0 := if u0 > u1 then u1 else u0
      let t1 := if u0 > u1 then u0 else u1
      let y0 := ray.origin.y + t0 * ray.direction.y
      let y1 := ray.origin.y + t1 * ray.direction.y
      (if params.minimum.lt (.fin y0) ∧ (Fp.fin y0).lt params.maximum then [t0] else [])
        ++ (if params.minimum.lt (.fin y1) ∧ (Fp.fin y1).lt params.maximum then [t1] else [])
        ++ cylinder_intersect_caps params ray

/-- Cylinder::local_normal_at: cap normals near the (possibly infinite)
minimum and maximum, lateral normal otherwise. -/
def cylinder_local_normal_at (params : CylParams) (point : Tuple) : Tuple :=
  let dist := point.x ^ 2 + point.z ^ 2
  if dist < 1 ∧ (Fp.fin point.y).ge (params.maximum.sub (.fin EPSILON)) then
    Tuple.vector 0 1 0
  else if dist < 1 ∧ (Fp.fin point.y).le (params.minimum.add (.fin EPSILON)) then
    Tuple.vector 0 (-1) 0
  else Tuple.vector point.x 0 point.z

/-- Cone::check_cap: radial distance within the cap disk of radius |y|. -/
def cone_check_cap (ray : Ray) (t y : ℝ) : Prop :=
  let x := ray.origin.x + t * ray.direction.x
  let z := ray.origin.z + t * ray.direction.z
  x ^ 2 + z ^ 2 ≤ |y| ^ 2

instance (ray : Ray) (t y : ℝ) : Decidable (cone_check_cap ray t y) := by
  unfold cone_check_cap; infer_instance

/-- Cone::intersect_caps, with the same Fp cap parameters as the cylinder. -/
def cone_intersect_caps (params : CylParams) (ray : Ray) : List ℝ :=
  if params.closed = false ∨ float_equal ray.direction.y 0 then []
  else
    let t1 := ((params.minimum.sub (.fin ray.origin.y)).div (.fin ray.direction.y)).toReal
    let t2 := ((params.maximum.sub (.fin ray.origin.y)).div (.fin ray.direction.y)).toReal
    (if cone_check_cap ray t1 params.minimum.toReal then [t1] else [])
      ++ (if cone_check_cap ray t2 params.maximum.toReal then [t2] else [])

/-- Cone::local_intersect from geometry/cones.rs, including the degenerate
linear case when the quadratic coefficient vanishes. -/
def cone_local_intersect (params : CylParams) (ray : Ray) : List ℝ :=
  let a := ray.direction.x ^ 2 - ray.direction.y ^ 2 + ray.direction.z ^ 2
  let b := 2 * ray.origin.x * ray.direction.x - 2 * ray.origin.y * ray.direction.y
    + 2 * ray.origin.z * ray.direction.z
  let c := ray.origin.x ^ 2 - ray.origin.y ^ 2 + ray.origin.z ^ 2
  if float_equal a 0 then
    if float_equal b 0 then cone_intersect_caps params ray
    else
      let t := -c / (2 * b)
      let y := ray.origin.y + t * ray.direction.y
      (if params.minimum.lt (.fin y) ∧ (Fp.fin y).lt params.maximum then [t] else [])
        ++ cone_intersect_caps params ray
  else
    let discriminant := b ^ 2 - 4 * a * c
    if discriminant < 0 then cone_intersect_caps params ray
    else
      let sqrt_disc := Real.sqrt discriminant
      let denom := 2 * a
      let u0 := (-b - sqrt_disc) / denom
      let u1 := (-b + sqrt_disc) / denom
      let t0 := if u0 > u1 then u1 else u0
      let t1 := if u0 > u1 then u0 else u1
      let y0 := ray.origin.y + t0 * ray.direction.y
      let y1 := ray.origin.y + t1 * ray.direction.y
      (if params.minimum.lt (.fin y0) ∧ (Fp.fin y0).lt params.maximum then [t0] else [])
        ++ (if params.minimum.lt (.fin y1) ∧ (Fp.fin y1).lt params.maximum then [t1] else [])
        ++ cone_intersect_caps params ray

/-- Cone::local_normal_at: cap normals near the bounds, else the lateral
normal whose y component is the radial distance with sign opposite to y. -/
def cone_local_normal_at (params : CylParams) (point : Tuple) : Tuple :=
  let dist := point.x ^ 2 + point.z ^ 2
  if dist < 1 ∧ (Fp.fin point.y).ge (params.maximum.sub (.fin EPSILON)) then
    Tuple.vector 0 1 0
  else if dist < 1 ∧ (Fp.fin point.y).le (params.minimum.add (.fin EPSILON)) then
    Tuple.vector 0 (-1) 0
  else
    let y0 := Real.sqrt (point.x ^ 2 + point.z ^ 2)
    let y := if point.y > 0 then -y0 else y0
    Tuple.vector point.x y point.z

namespace Object

/-- The bounds() dispatch of geometry (sphere/cube: the unit box; plane:
infinite in x and z, flat in y; cylinder: unit radius between minimum and
maximum; cone: modelled from the spec and the bounds tests, radius
max(|minimum|,|maximum|) when bounded and infinite otherwise, since the
current geometry/cones.rs in the snapshot predates bounds; group: the merge
of each child's bounds transformed by that child's local transform). -/
def bounds : Object → Bounds
  | sphere _ => ⟨⟨.fin (-1), .fin (-1), .fin (-1)⟩, ⟨.fin 1, .fin 1, .fin 1⟩⟩
  | plane _ => ⟨⟨.ninf, .fin 0, .ninf⟩, ⟨.inf, .fin 0, .inf⟩⟩
  | cube _ => ⟨⟨.fin (-1), .fin (-1), .fin (-1)⟩, ⟨.fin 1, .fin 1, .fin 1⟩⟩
  | cylinder _ p => ⟨⟨.fin (-1), p.minimum, .fin (-1)⟩, ⟨.fin 1, p.maximum, .fin 1⟩⟩
  | cone _ p =>
      match p.minimum, p.maximum with
      | .fin mn, .fin mx =>
          let limit := Max.max |mn| |mx|
          ⟨⟨.fin (-limit), .fin mn, .fin (-limit)⟩, ⟨.fin limit, .fin mx, .fin limit⟩⟩
      | _, _ => Bounds.infinite
  | group _ cs =>
      cs.attach.foldl
        (fun acc c => acc.merge ((Object.bounds c.1).transform c.1.transformation))
        Bounds.empty
termination_by o => sizeOf o
decreasing_by
  have h := List.sizeOf_lt_of_mem c.2
  simp only [Object.group.sizeOf_spec]
  omega

mutual

/-- Object::intersect (Intersectable): transform the ray into local space by
the inverse local transform, then dispatch to the geometry. -/
def intersect (o : Object) (ray : Ray) : List ℝ :=
  let local_ray := ray.transform (o.transformation)⁻¹
  o.local_intersect local_ray

/-- The local_intersect dispatch; the Group case is geometry/groups.rs:
bounds pre-check, then each child's full intersect on the group-local ray,
concatenated and sorted. -/
def local_intersect (o : Object) (ray : Ray) : List ℝ :=
  match o with
  | sphere _ => sphere_local_intersect ray
  | plane _ => plane_local_intersect ray
  | cube _ => cube_local_intersect ray
  | cylinder _ p => cylinder_local_intersect p ray
  | cone _ p => cone_local_intersect p ray
  | group c cs =>
      if (Object.bounds (group c cs)).intersects ray.toFp then
        sort_floats (intersect_list cs ray)
      else []

/-- The loop over a group's children inside Group::local_intersect. -/
def intersect_list : List Object → Ray → List ℝ
  | [], _ => []
  | c :: cs, ray => c.intersect ray ++ intersect_list cs ray

end

mutual

/-- Object::intersect_with_object: a group bounds-tests the group-local ray
and recurses into its children, returning child-tagged intersections sorted
by t; every other variant tags its own ts with itself.  The Rust &self
reference is the explicit path selfRef. -/
def intersect_with_object (o : Object) (selfRef : List ℕ) (r : Ray) : List Intersection :=
  match o with
  | group c cs =>
      let local_ray := r.transform (c.transformation)⁻¹
      if (Object.bounds (group c cs)).intersects local_ray.toFp then
        sort_by_t (intersect_with_object_list cs selfRef 0 local_ray)
      else []
  | o => (o.intersect r).map fun t => ⟨t, selfRef, o⟩

/-- The loop over a group's children inside intersect_with_object, tagging
child j with the path selfRef ++ [j]. -/
def intersect_with_object_list :
    List Object → List ℕ → ℕ → Ray → List Intersection
  | [], _, _, _ => []
  | c :: cs, selfRef, j, r =>
      c.intersect_with_object (selfRef ++ [j]) r
        ++ intersect_with_object_list cs selfRef (j + 1) r

end

/-- Object::world_to_object: apply the inverse of the cached world
transform. -/
def world_to_object (o : Object) (world_point : Tuple) : Tuple :=
  ((o.world_transformation)⁻¹).apply world_point

/-- Object::normal_to_world: inverse-transpose of the world transform, w
dropped, renormalized. -/
def normal_to_world (o : Object) (object_normal : Tuple) : Tuple :=
  let inverse := (o.world_transformation)⁻¹
  let transformed := inverse.transpose.apply object_normal
  (Tuple.vector transformed.x transformed.y transformed.z).normalize

/-- The local_normal_at dispatch.  Group::local_normal_at is the panic
branch, modelled as none. -/
def local_normal_at : Object → Tuple → Option Tuple
  | sphere _, p => some (sphere_local_normal_at p)
  | plane _, p => some (plane_local_normal_at p)
  | cube _, p => some (cube_local_normal_at p)
  | cylinder _ params, p => some (cylinder_local_normal_at params p)
  | cone _ params, p => some (cone_local_normal_at params p)
  | group _ _, _ => none

/-- Object::normal_at: world point to local space through the cached world
transform, local normal, back through normal_to_world.  none only on the
group panic branch. -/
def normal_at (o : Object) (world_point : Tuple) : Option Tuple :=
  (o.local_normal_at (o.world_to_object world_point)).map o.normal_to_world

mutual

/-- Object::update_transforms: store the new local and world transforms; a
group additionally repropagates the world transform to its children. -/
def update_transforms (o : Object) (t w : Matrix4) : Object :=
  match o with
  | sphere c => sphere {c with transformation := t, world_transformation := w}
  | plane c => plane {c with transformation := t, world_transformation := w}
  | cube c => cube {c with transformation := t, world_transformation := w}
  | cylinder c p => cylinder {c with transformation := t, world_transformation := w} p
  | cone c p => cone {c with transformation := t, world_transformation := w} p
  | group c cs =>
      group {c with transformation := t, world_transformation := w}
        (propagate_world_transform_to_group_children cs w)

/-- propagate_world_transform_to_group_children from geometry/groups.rs:
every child is rewritten to world = parent_world * its local transform,
recursing through update_transforms into nested groups. -/
def propagate_world_transform_to_group_children
    (children : List Object) (parent_world_transform : Matrix4) : List Object :=
  match children with
  | [] => []
  | c :: cs =>
      c.update_transforms c.transformation (parent_world_transform * c.transformation)
        :: propagate_world_transform_to_group_children cs parent_world_transform

end

/-- Object::set_world_transform: keep the local transform, overwrite the
cached world transform (propagating through groups). -/
def set_world_transform (o : Object) (world_transformation : Matrix4) : Object :=
  o.update_transforms o.transformation world_transformation

end Object

mutual

/-- A structural size measure on object trees (1 per node), used for the
termination of Group::add_child below. -/
def Object.size : Object → ℕ
  | .group _ cs => 1 + sizeList cs
  | _ => 1

/-- Total size of a list of object trees. -/
def sizeList : List Object → ℕ
  | [] => 0
  | c :: cs => c.size + sizeList cs

end

theorem Object.size_pos (o : Object) : 1 ≤ o.size := by
  cases o <;> simp [Object.size]

mutual

theorem size_update_transforms (o : Object) (t w : Matrix4) :
    (o.update_transforms t w).size = o.size := by
  cases o with
  | group c cs =>
      simp only [Object.update_transforms, Object.size, size_propagate cs w]
  | sphere c => rfl
  | plane c => rfl
  | cube c => rfl
  | cylinder c p => rfl
  | cone c p => rfl

theorem size_propagate (cs : List Object) (w : Matrix4) :
    sizeList (Object.propagate_world_transform_to_group_children cs w) = sizeList cs := by
  cases cs with
  | nil => rfl
  | cons c rest =>
      simp only [Object.propagate_world_transform_to_group_children, sizeList,
        size_update_transforms c c.transformation (w * c.transformation),
        size_propagate rest w]

end

theorem size_set_world_transform (o : Object) (w : Matrix4) :
    (o.set_world_transform w).size = o.size :=
  size_update_transforms o o.transformation w

namespace Group

mutual

/-- Group::add_child from geometry/groups.rs: the new child's world
transform is parent_world * the group's local transform * the child's local
transform, written through set_world_transform (which repropagates through
the whole subtree); the source's subsequent "if the child is a group, drain
its children and re-add them under the extended ancestor chain" step is the
helper regrow_child.  self is given by its local transform and its current
child list. -/
def add_child (selfT : Matrix4) (children : List Object) (child : Object)
    (parent_world_transform : Matrix4) : List Object :=
  let child_world := parent_world_transform * selfT * child.transformation
  children
    ++ [regrow_child (child.set_world_transform child_world)
          (parent_world_transform * selfT)]
termination_by 3 * child.size + 1
decreasing_by
  rw [size_set_world_transform]
  omega

/-- The source's if-let on the freshly inserted child: a group child has its
(already world-updated) children drained and re-added one by one via
add_child under parent world transform pw (= the original parent world times
the receiving group's local transform); any other child is kept as is. -/
def regrow_child : Object → Matrix4 → Object
  | .group ccore gchildren, pw =>
      .group ccore (add_child_each ccore.transformation [] gchildren pw)
  | o, _ => o
termination_by o _ => 3 * o.size
decreasing_by
  simp only [Object.size]
  omega

/-- The drain-and-re-add loop of Group::add_child: each grandchild is
re-added to the (emptied) child group in order. -/
def add_child_each : Matrix4 → List Object → List Object → Matrix4 → List Object
  | _, acc, [], _ => acc
  | selfT, acc, gc :: rest, pw =>
      add_child_each selfT (add_child selfT acc gc pw) rest pw
termination_by _ _ gcs _ => 3 * sizeList gcs + 2
decreasing_by
  · have h2 := Object.size_pos gc
    simp only [sizeList]
    omega
  · simp only [sizeList]
    have h2 := Object.size_pos gc
    omega

end

end Group

/-- Apply f to the list element at the given index (the children.get_mut
pattern of Group::set_child_transform); out of range leaves the list
unchanged. -/
def modifyNth (f : Object → Object) : ℕ → List Object → List Object
  | _, [] => []
  | 0, c :: cs => f c :: cs
  | n + 1, c :: cs => c :: modifyNth f n cs

/-- Transformable::set_transform, addressed by a path of child indices from
a root object (the path stands for the Rust parent back-references: the
source looks up the parent's cached world transform through a weak pointer,
the model passes each node's cached world transform down while descending;
for a root node the parent world transform is the identity).  At the target
the source computes world = parent_world * new_local and calls
update_transforms, exactly as Group::set_child_transform does one level
down.  A path into a childless node leaves the tree unchanged. -/
def set_transform_at : List ℕ → Matrix4 → Matrix4 → Object → Object
  | [], m, pw, o => o.update_transforms m (pw * m)
  | i :: rest, m, _, .group c cs =>
      .group c (modifyNth (set_transform_at rest m c.world_transformation) i cs)
  | _ :: _, _, _, o => o

/-- Group::add_child, addressed by the path of the receiving group from a
root object; the parent world transform is carried down the path from the
identity at the root, as maintained by the caches (this is what
add_child_to_group_rc reads through the weak parent pointer). -/
def add_child_at : List ℕ → Object → Matrix4 → Object → Object
  | [], newChild, pw, .group c cs =>
      .group c (Group.add_child c.transformation cs newChild pw)
  | [], _, _, o => o
  | i :: rest, newChild, _, .group c cs =>
      .group c (modifyNth (add_child_at rest newChild c.world_transformation) i cs)
  | _ :: _, _, _, o => o

/-- One mutation of the object graph: a local-transform write at any depth,
or a child insertion into the group at any depth. -/
inductive SceneOp where
  | setTransform (path : List ℕ) (m : Matrix4)
  | addChild (path : List ℕ) (child : Object)

/-- Apply one mutation to a root object (parent world transform of a root is
the identity). -/
def applyOp (o : Object) : SceneOp → Object
  | .setTransform path m => set_transform_at path m 1 o
  | .addChild path child => add_child_at path child 1 o

/-- Apply a sequence of mutations in order. -/
def applyOps (o : Object) (ops : List SceneOp) : Object :=
  ops.foldl applyOp o

mutual

/-- The cached-world-transform invariant below a given parent world
transform: the node's cached world transform is parent_world * its local
transform, and recursively every child satisfies the invariant under the
node's cached world transform. -/
def consistentUnder : Matrix4 → Object → Prop
  | pw, .group c cs =>
      c.world_transformation = pw * c.transformation
        ∧ consistentChildren c.world_transformation cs
  | pw, o => o.world_transformation = pw * o.transformation

/-- The invariant for every tree in a list of children. -/
def consistentChildren : Matrix4 → List Object → Prop
  | _, [] => True
  | pw, c :: cs => consistentUnder pw c ∧ consistentChildren pw cs

end

/-- The invariant for a root object (no parent: parent world transform is
the identity). -/
def consistent (o : Object) : Prop := consistentUnder 1 o

/-- Pattern::color_at_object: world point to object space through the
object's world transform, then to pattern space through the pattern's own
transform. -/
def Pattern.color_at_object (p : Pattern) (object : Object) (world_point : Tuple) : Color :=
  let object_point := object.world_to_object world_point
  let pattern_point := ((p.transform)⁻¹).apply object_point
  p.color_at pattern_point

/-- Material::lighting from scene/materials.rs: the Phong model.  Ambient is
always added; diffuse and specular are the black defaults unless
light_dot_normal >= 0 and the point is not in shadow; specular further
requires reflect_dot_eye > 0 and uses powf(shininess) (real rpow). -/
def Material.lighting (m : Material) (object : Object) (light : PointLight)
    (point eye_vector normal_vector : Tuple) (in_shadow : Bool) : Color :=
  let color := match m.pattern with
    | some pattern => pattern.color_at_object object point
    | none => m.color
  let effective_color := color * light.intensity
  let light_vector := (light.position - point).normalize
  let ambient := effective_color * m.ambient
  let light_dot_normal := light_vector.dot normal_vector
  let ds : Color × Color :=
    if 0 ≤ light_dot_normal ∧ in_shadow = false then
      let diffuse := effective_color * m.diffuse * light_dot_normal
      let reflect_vector := (-light_vector).reflect normal_vector
      let reflect_dot_eye := reflect_vector.dot eye_vector
      let specular :=
        if 0 < reflect_dot_eye then
          light.intensity * m.specular * Real.rpow reflect_dot_eye m.shininess
        else Color.black
      (diffuse, specular)
    else (Color.black, Color.black)
  ambient + ds.1 + ds.2

/-- World from rendering/world.rs. -/
structure World where
  objects : List Object
  light_source : Option PointLight

/-- DEFAULT_MAX_REFLECTION_DEPTH and DEFAULT_MAX_REFRACTION_DEPTH. -/
def DEFAULT_MAX_DEPTH : ℕ := 5

/-- World::intersect: every object's local ts wrapped as Intersections
tagged with that top-level object (index i in the object list stands for
the Rust reference to slot i), concatenated and sorted ascending by t. -/
def World.intersect (w : World) (ray : Ray) : List Intersection :=
  sort_by_t ((w.objects.enum).flatMap fun p =>
    (p.2.intersect ray).map fun t => ⟨t, [p.1], p.2⟩)

/-- Intersection::hit: the first entry with t >= 0 (assumes ascending
order). -/
def Intersection.hit (intersections : List Intersection) : Option Intersection :=
  intersections.find? fun i => decide (0 ≤ i.t)

/-- Computations from rendering/intersections.rs. -/
structure Computations where
  time : ℝ
  object : Object
  point : Tuple
  eye_vector : Tuple
  normal_vector : Tuple
  reflect_vector : Tuple
  inside : Bool
  over_point : Tuple
  under_point : Tuple
  n1 : ℝ
  n2 : ℝ

/-- The refractive index on top of the containers stack (its last element),
1.0 when the stack is empty. -/
def containersTop (containers : List (List ℕ × Object)) : ℝ :=
  match containers.getLast? with
  | some c => c.2.material.refractive_index
  | none => 1

/-- One containers update of the prepare_computations loop: if the
intersection's object (by reference, i.e. path) is present, remove its first
occurrence (exiting); otherwise push it (entering). -/
def containersUpdate (containers : List (List ℕ × Object)) (i : Intersection) :
    List (List ℕ × Object) :=
  if containers.any (fun c => decide (c.1 = i.objRef)) then
    containers.eraseP (fun c => decide (c.1 = i.objRef))
  else containers ++ [(i.objRef, i.obj)]

/-- The n1/n2 scan of prepare_computations_for_intersections: walk the
sorted list updating the containers stack; at the first entry that is the
hit (same object reference and float-equal t) read n1 before the update and
n2 after it and stop; if the scan ends without finding the hit both stay at
the initial 1.0. -/
def n1n2_scan : List Intersection → List (List ℕ × Object) → List ℕ → ℝ → ℝ × ℝ
  | [], _, _, _ => (1, 1)
  | i :: rest, containers, hitRef, hitT =>
      if i.objRef = hitRef ∧ float_equal i.t hitT then
        (containersTop containers, containersTop (containersUpdate containers i))
      else n1n2_scan rest (containersUpdate containers i) hitRef hitT

/-- Intersection::prepare_computations_for_intersections: eye vector, the
normal (flipped and inside=true when it faces away from the eye), reflection
vector, the over and under points offset by EPSILON, and the n1/n2 pair from
the containers scan.  none exactly when normal_at panics (group hit). -/
def Intersection.prepare_computations_for_intersections (self : Intersection)
    (ray : Ray) (intersections : List Intersection) : Option Computations :=
  (self.obj.normal_at (ray.position self.t)).map fun normal_vector0 =>
    let eye_vector := -ray.direction
    let flip : Bool × Tuple :=
      if normal_vector0.dot eye_vector < 0 then (true, -normal_vector0)
      else (false, normal_vector0)
    let normal_vector := flip.2
    let reflect_vector := ray.direction.reflect normal_vector
    let point := ray.position self.t
    let over_point := point + normal_vector * EPSILON
    let under_point := point - normal_vector * EPSILON
    let n := n1n2_scan intersections [] self.objRef self.t
    ⟨self.t, self.obj, point, eye_vector, normal_vector, reflect_vector,
      flip.1, over_point, under_point, n.1, n.2⟩

/-- Intersection::prepare_computations: the scan list is just the hit
itself. -/
def Intersection.prepare_computations (self : Intersection) (ray : Ray) :
    Option Computations :=
  self.prepare_computations_for_intersections ray [self]

/-- Computations::schlick: the Fresnel reflectance approximation.  The
source mutates cos in place when n1 > n2; here the two branches are written
out. -/
def Computations.schlick (c : Computations) : ℝ :=
  let cos := c.eye_vector.dot c.normal_vector
  if c.n1 > c.n2 then
    let n := c.n1 / c.n2
    let sin2_t := n ^ 2 * (1 - cos ^ 2)
    if sin2_t > 1 then 1
    else
      let cosAdj := Real.sqrt (1 - sin2_t)
      let r0 := ((c.n1 - c.n2) / (c.n1 + c.n2)) ^ 2
      r0 + (1 - r0) * (1 - cosAdj) ^ 5
  else
    let r0 := ((c.n1 - c.n2) / (c.n1 + c.n2)) ^ 2
    r0 + (1 - r0) * (1 - cos) ^ 5

/-- World::is_shadowed: cast a ray from the point toward the light; shadowed
when the nearest non-negative hit is closer than the light.  No light means
never shadowed. -/
def World.is_shadowed (w : World) (point : Tuple) : Bool :=
  match w.light_source with
  | none => false
  | some light =>
      let v := light.position - point
      let distance := v.magnitude
      let direction := v.normalize
      let ray : Ray := ⟨point, direction⟩
      match Intersection.hit (w.intersect ray) with
      | some h => decide (h.t < distance)
      | none => false

mutual

/-- World::color_at_internal: find the hit, prepare computations, shade;
black when nothing is hit.  none means the Rust code would panic (a
group-tagged hit reaching Group::local_normal_at). -/
def World.color_at_internal (w : World) (ray : Ray) (remaining : ℕ) : Option Color :=
  match Intersection.hit (w.intersect ray) with
  | some h =>
      (h.prepare_computations ray).bind fun comps =>
        World.shade_hit_internal w comps remaining
  | none => some Color.black
termination_by 3 * remaining + 2
decreasing_by omega

/-- World::shade_hit_internal: surface Phong term plus reflected and
refracted contributions; a material both reflective and transparent blends
the latter two by the Schlick reflectance. -/
def World.shade_hit_internal (w : World) (comps : Computations) (remaining : ℕ) :
    Option Color :=
  match w.light_source with
  | none => some Color.black
  | some light =>
      let in_shadow := w.is_shadowed comps.over_point
      let surface := comps.object.material.lighting comps.object light comps.point
        comps.eye_vector comps.normal_vector in_shadow
      (World.reflected_color_internal w comps remaining).bind fun reflected_color =>
        (World.refracted_color_internal w comps remaining).map fun refracted_color =>
          let material := comps.object.material
          if 0 < material.reflectivity ∧ 0 < material.transparency then
            let reflectance := comps.schlick
            surface + reflected_color * reflectance
              + refracted_color * (1 - reflectance)
          else surface + reflected_color + refracted_color
termination_by 3 * remaining + 1
decreasing_by all_goals omega

/-- World::reflected_color_internal: black at depth 0 or reflectivity 0,
otherwise recurse along the reflection ray from over_point with one fewer
bounce and scale by the reflectivity. -/
def World.reflected_color_internal (w : World) (comps : Computations) (remaining : ℕ) :
    Option Color :=
  match remaining with
  | 0 => some Color.black
  | n + 1 =>
      if comps.object.material.reflectivity = 0 then some Color.black
      else
        let reflect_ray : Ray := ⟨comps.over_point, comps.reflect_vector⟩
        (World.color_at_internal w reflect_ray n).map fun color =>
          color * comps.object.material.reflectivity
termination_by 3 * remaining
decreasing_by omega

/-- World::refracted_color_internal: black at depth 0, transparency 0 or
total internal reflection, otherwise recurse along the Snell-refracted ray
from under_point and scale by the transparency. -/
def World.refracted_color_internal (w : World) (comps : Computations) (remaining : ℕ) :
    Option Color :=
  match remaining with
  | 0 => some Color.black
  | n + 1 =>
      if comps.object.material.transparency = 0 then some Color.black
      else
        let n_quot := comps.n1 / comps.n2
        let cos_i := comps.eye_vector.dot comps.normal_vector
        let sin2_t := n_quot ^ 2 * (1 - cos_i ^ 2)
        if sin2_t > 1 then some Color.black
        else
          let cos_t := Real.sqrt (1 - sin2_t)
          let direction := comps.normal_vector * (n_quot * cos_i - cos_t)
            - comps.eye_vector * n_quot
          let refract_ray : Ray := ⟨comps.under_point, direction⟩
          (World.color_at_internal w refract_ray n).map fun color =>
            color * comps.object.material.transparency
termination_by 3 * remaining
decreasing_by omega

end

/-- World::color_at: the public entry at the default depth of 5. -/
def World.color_at (w : World) (ray : Ray) : Option Color :=
  w.color_at_internal ray DEFAULT_MAX_DEPTH

/-- World::shade_hit at the default depth. -/
def World.shade_hit (w : World) (comps : Computations) : Option Color :=
  w.shade_hit_internal comps DEFAULT_MAX_DEPTH

/-- World::reflected_color at the default depth. -/
def World.reflected_color (w : World) (comps : Computations) : Option Color :=
  w.reflected_color_internal comps DEFAULT_MAX_DEPTH

/-- World::refracted_color at the default depth. -/
def World.refracted_color (w : World) (comps : Computations) : Option Color :=
  w.refracted_color_internal comps DEFAULT_MAX_DEPTH

/-- Finiteness of an f64 value (neither infinite nor NaN). -/
def Fp.isFinite (a : Fp) : Prop := ∃ x, a = Fp.fin x

/-- The containers-stack replay of the spec's n1/n2 description: fold the
updates (push on an object's first occurrence, remove it on its second —
i.e. the membership toggle) over a prefix of the intersection list. -/
def replayStack (xs : List Intersection) : List (List ℕ × Object) :=
  xs.foldl containersUpdate []

/-- The index of the first entry of the list that is the designated hit
(same object reference, float-equal t), if any. -/
def firstHitIdx (hitRef : List ℕ) (hitT : ℝ) : List Intersection → Option ℕ
  | [] => none
  | i :: rest =>
      if i.objRef = hitRef ∧ float_equal i.t hitT then some 0
      else (firstHitIdx hitRef hitT rest).map (· + 1)

/-- Fixture: a default unit sphere (identity transforms, default material),
as Sphere::new produces. -/
def sphereUnit : Object := Object.sphere ⟨1, 1, Material.default⟩

/-- Fixture: a group holding one default sphere, identity transforms. -/
def groupWithSphere : Object := Object.group ⟨1, 1, Material.default⟩ [sphereUnit]

/-- Fixture: a world whose single object is a group containing a sphere. -/
def worldGroup : World :=
  ⟨[groupWithSphere], some ⟨Tuple.point 0 0 0, Color.white⟩⟩

/-- Fixture: the ray from (0,0,-5) along +z. -/
def rayZ : Ray := ⟨Tuple.point 0 0 (-5), Tuple.vector 0 0 1⟩

/-- Fixture: a fully reflective default-based material. -/
def mirrorMaterial : Material :=
  ⟨Color.white, 1 / 10, 9 / 10, 9 / 10, 200, 1, 0, 1, none⟩

/-- Fixture: the fully reflective plane at y = -1 (after set_transform its
cached world transform equals its local transform). -/
def lowerPlane : Object :=
  Object.plane ⟨Matrix4.translate 0 (-1) 0, Matrix4.translate 0 (-1) 0, mirrorMaterial⟩

/-- Fixture: the fully reflective plane at y = +1. -/
def upperPlane : Object :=
  Object.plane ⟨Matrix4.translate 0 1 0, Matrix4.translate 0 1 0, mirrorMaterial⟩

/-- Fixture: the two facing mirrors with the light at the origin. -/
def mirrorWorld : World :=
  ⟨[lowerPlane, upperPlane], some ⟨Tuple.point 0 0 0, Color.white⟩⟩

/-- Fixture: the upward ray from the origin between the mirrors. -/
def mirrorRay : Ray := ⟨Tuple.point 0 0 0, Tuple.vector 0 1 0⟩

/-- Fixture: the downward bounce ray leaving the upper mirror from its
over-point. -/
def mirrorRayDown : Ray := ⟨⟨0, 1 - EPSILON, 0, 1⟩, ⟨0, -1, 0, 0⟩⟩

/-- Fixture: the upward bounce ray leaving the lower mirror from its
over-point. -/
def mirrorRayUp : Ray := ⟨⟨0, -1 + EPSILON, 0, 1⟩, ⟨0, 1, 0, 0⟩⟩

/-- The computations record for a hit on the upper mirror by a vertical
upward ray at parameter t (inside: the normal is flipped, the eye being
below the plane). -/
def compsUp (t : ℝ) : Computations :=
  ⟨t, upperPlane, ⟨0, 1, 0, 1⟩, ⟨0, -1, 0, 0⟩, ⟨0, -1, 0, 0⟩, ⟨0, -1, 0, 0⟩,
    true, ⟨0, 1 - EPSILON, 0, 1⟩, ⟨0, 1 + EPSILON, 0, 1⟩, 1, 1⟩

/-- The computations record for a hit on the lower mirror by a vertical
downward ray at parameter t. -/
def compsDn (t : ℝ) : Computations :=
  ⟨t, lowerPlane, ⟨0, -1, 0, 1⟩, ⟨0, 1, 0, 0⟩, ⟨0, 1, 0, 0⟩, ⟨0, 1, 0, 0⟩,
    false, ⟨0, -1 + EPSILON, 0, 1⟩, ⟨0, -1 - EPSILON, 0, 1⟩, 1, 1⟩

/-- Fixture: a default plane with refractive index 1.5. -/
def glassPlaneA : Object :=
  Object.plane ⟨1, 1, ⟨Color.white, 1 / 10, 9 / 10, 9 / 10, 200, 0, 1, 3 / 2, none⟩⟩

/-- Fixture: a default plane with refractive index 2. -/
def glassPlaneB : Object :=
  Object.plane ⟨1, 1, ⟨Color.white, 1 / 10, 9 / 10, 9 / 10, 200, 0, 1, 2, none⟩⟩

/-- Fixture: a sorted four-entry intersection list through two nested glass
planes (enter A, enter B, exit B, exit A). -/
def xsGlass : List Intersection :=
  [⟨1, [0], glassPlaneA⟩, ⟨2, [1], glassPlaneB⟩,
   ⟨3, [1], glassPlaneB⟩, ⟨4, [0], glassPlaneA⟩]

/-- Fixture: the designated hit inside xsGlass (entering B). -/
def hitGlass : Intersection := ⟨2, [1], glassPlaneB⟩

/-- Fixture: the upward ray used with xsGlass. -/
def rayUp5 : Ray := ⟨Tuple.point 0 (-5) 0, Tuple.vector 0 1 0⟩

/-- Fixture: the computations record prepare_computations_for_intersections
produces for hitGlass on rayUp5 against xsGlass. -/
def compsGlass : Computations :=
  ⟨2, glassPlaneB, ⟨0, -3, 0, 1⟩, ⟨0, -1, 0, 0⟩, ⟨0, -1, 0, 0⟩, ⟨0, -1, 0, 0⟩,
    true, ⟨0, -3 - EPSILON, 0, 1⟩, ⟨0, -3 + EPSILON, 0, 1⟩, 3 / 2, 2⟩

theorem Matrix4.inv_one : (1 : Matrix4)⁻¹ = 1 :=
  Matrix.inv_eq_right_inv (one_mul 1)

theorem Matrix4.one_apply (i j : Fin 4) :
    (1 : Matrix4) i j = if i = j then 1 else 0 :=
  Matrix.one_apply

theorem Matrix4.apply_one (t : Tuple) : Matrix4.apply 1 t = t := by
  cases t
  simp +decide [Matrix4.apply, Matrix4.one_apply]

theorem Ray.transform_one (r : Ray) : r.transform 1 = r := by
  cases r
  simp [Ray.transform, Matrix4.apply_one]

theorem tuple_add_eval (a b : Tuple) :
    a + b = ⟨a.x + b.x, a.y + b.y, a.z + b.z, a.w + b.w⟩ := rfl

theorem tuple_sub_eval (a b : Tuple) :
    a - b = ⟨a.x - b.x, a.y - b.y, a.z - b.z, a.w - b.w⟩ := rfl

theorem tuple_neg_eval (a : Tuple) :
    -a = ⟨0 - a.x, 0 - a.y, 0 - a.z, 0 - a.w⟩ := rfl

theorem tuple_smul_eval (a : Tuple) (s : ℝ) :
    a * s = ⟨a.x * s, a.y * s, a.z * s, a.w * s⟩ := rfl

theorem color_add_eval (a b : Color) :
    a + b = ⟨a.red + b.red, a.green + b.green, a.blue + b.blue⟩ := rfl

theorem color_sub_eval (a b : Color) :
    a - b = ⟨a.red - b.red, a.green - b.green, a.blue - b.blue⟩ := rfl

theorem color_smul_eval (a : Color) (s : ℝ) :
    a * s = ⟨a.red * s, a.green * s, a.blue * s⟩ := rfl

theorem color_mul_eval (a b : Color) :
    a * b = ⟨a.red * b.red, a.green * b.green, a.blue * b.blue⟩ := rfl

/-- C9: MaterialBuilder::build rejects (panics, modelled none) exactly when
one of ambient, diffuse, specular, shininess is negative, and otherwise
returns the material with exactly the supplied field values; reflectivity,
transparency and refractive_index are carried over unchecked. -/
theorem c9_material_builder_build (b : MaterialBuilder) :
    (b.build = none ↔
      (b.ambient < 0 ∨ b.diffuse < 0 ∨ b.specular < 0 ∨ b.shininess < 0)) ∧
    (¬(b.ambient < 0 ∨ b.diffuse < 0 ∨ b.specular < 0 ∨ b.shininess < 0) →
      b.build = some ⟨b.color, b.ambient, b.diffuse, b.specular, b.shininess,
        b.reflectivity, b.transparency, b.refractive_index, b.pattern⟩) := by
  unfold MaterialBuilder.build
  by_cases h : b.ambient < 0 ∨ b.diffuse < 0 ∨ b.specular < 0 ∨ b.shininess < 0 <;>
    simp [h]

/-- Witness for C9: a builder with out-of-range reflectivity -3, transparency
7/5 and refractive index -2 but non-negative checked fields builds exactly
that material. -/
theorem c9_material_builder_build_witness :
    MaterialBuilder.build ⟨Color.white, 1 / 10, 9 / 10, 9 / 10, 200, -3, 7 / 5, -2, none⟩
      = some ⟨Color.white, 1 / 10, 9 / 10, 9 / 10, 200, -3, 7 / 5, -2, none⟩ :=
  (c9_material_builder_build _).2 (by norm_num)

/-- C4: on an ascending-sorted list, hit returns the first entry with
t >= 0, which is then a minimal non-negative entry; and it returns none
exactly when every entry has negative t (in particular negative entries are
never selected). -/
theorem c4_hit_first_nonneg (xs : List Intersection)
    (hsorted : xs.Sorted fun a b => a.t ≤ b.t) :
    (∀ i, Intersection.hit xs = some i →
      i ∈ xs ∧ 0 ≤ i.t ∧ ∀ j ∈ xs, 0 ≤ j.t → i.t ≤ j.t) ∧
    (Intersection.hit xs = none ↔ ∀ j ∈ xs, j.t < 0) := by
  constructor
  · intro i hi
    refine ⟨List.mem_of_find?_eq_some hi, by simpa using List.find?_some hi, ?_⟩
    induction xs with
    | nil => simp [Intersection.hit] at hi
    | cons x rest ih =>
        by_cases hx : 0 ≤ x.t
        · rw [Intersection.hit, List.find?_cons_of_pos _ (by simpa using hx)] at hi
          cases hi
          intro j hj _
          rcases List.mem_cons.mp hj with hj | hj
          · rw [hj]
          · exact (List.sorted_cons.mp hsorted).1 j hj
        · rw [Intersection.hit, List.find?_cons_of_neg _ (by simpa using hx)] at hi
          intro j hj hjt
          rcases List.mem_cons.mp hj with hj | hj
          · exact absurd (hj ▸ hjt) hx
          · exact ih (List.sorted_cons.mp hsorted).2 hi j hj hjt
  · rw [Intersection.hit, List.find?_eq_none]
    constructor
    · intro h j hj
      have := h j hj
      simpa using this
    · intro h j hj
      simpa using not_le.mpr (h j hj)

/-- Witness for C4: the sorted list with entries at t = -1 and t = 2 is
sorted, its hit is minimal non-negative, and an all-negative list gives
none. -/
theorem c4_hit_first_nonneg_witness :
    List.Sorted (fun a b : Intersection => a.t ≤ b.t)
        [⟨-1, [], sphereUnit⟩, ⟨2, [], sphereUnit⟩] ∧
    Intersection.hit [⟨-1, [], sphereUnit⟩, ⟨2, [], sphereUnit⟩]
        = some ⟨2, [], sphereUnit⟩ ∧
    (0 : ℝ) ≤ 2 ∧
    Intersection.hit [(⟨-3, [], sphereUnit⟩ : Intersection), ⟨-1, [], sphereUnit⟩] = none := by
  have hs : List.Sorted (fun a b : Intersection => a.t ≤ b.t)
      [⟨-1, [], sphereUnit⟩, ⟨2, [], sphereUnit⟩] := by
    norm_num [List.sorted_cons]
  have hs2 : List.Sorted (fun a b : Intersection => a.t ≤ b.t)
      [⟨-3, [], sphereUnit⟩, ⟨-1, [], sphereUnit⟩] := by
    norm_num [List.sorted_cons]
  have h1 := c4_hit_first_nonneg _ hs
  have h2 := c4_hit_first_nonneg _ hs2
  refine ⟨hs, ?_, by norm_num, ?_⟩
  · rw [Intersection.hit, List.find?_cons_of_neg _ (by norm_num),
      List.find?_cons_of_pos _ (by norm_num)]
  · refine h2.2.mpr ?_
    intro j hj
    fin_cases hj <;> norm_num

/-- C7: schlick returns 1 exactly on the total-internal-reflection branch
(n1 > n2 and squared transmitted sine above 1), and otherwise returns
r0 + (1 - r0)(1 - cos)^5 with r0 = ((n1-n2)/(n1+n2))^2, where cos is
eye-dot-normal except that under n1 > n2 it is the transmitted cosine
sqrt(1 - sin^2). -/
theorem c7_schlick_characterisation (c : Computations) :
    c.schlick =
      if c.n1 > c.n2
          ∧ (c.n1 / c.n2) ^ 2 * (1 - (c.eye_vector.dot c.normal_vector) ^ 2) > 1 then
        1
      else
        let r0 := ((c.n1 - c.n2) / (c.n1 + c.n2)) ^ 2
        let cosv :=
          if c.n1 > c.n2 then
            Real.sqrt (1 - (c.n1 / c.n2) ^ 2 * (1 - (c.eye_vector.dot c.normal_vector) ^ 2))
          else c.eye_vector.dot c.normal_vector
        r0 + (1 - r0) * (1 - cosv) ^ 5 := by
  unfold Computations.schlick
  by_cases h1 : c.n1 > c.n2
  · by_cases h2 :
      (c.n1 / c.n2) ^ 2 * (1 - (c.eye_vector.dot c.normal_vector) ^ 2) > 1
    · simp [h1, h2]
    · simp [h1, h2]
  · simp [h1]

theorem n1n2_scan_eq (hitRef : List ℕ) (hitT : ℝ) :
    ∀ (xs : List Intersection) (cs : List (List ℕ × Object)) (k : ℕ),
      firstHitIdx hitRef hitT xs = some k →
      n1n2_scan xs cs hitRef hitT =
        (containersTop ((xs.take k).foldl containersUpdate cs),
         containersTop ((xs.take (k + 1)).foldl containersUpdate cs)) := by
  intro xs
  induction xs with
  | nil => intro cs k hk; simp [firstHitIdx] at hk
  | cons i rest ih =>
      intro cs k hk
      by_cases hp : i.objRef = hitRef ∧ float_equal i.t hitT
      · rw [firstHitIdx, if_pos hp] at hk
        cases hk
        simp [n1n2_scan, hp, List.take, List.foldl]
      · rw [firstHitIdx, if_neg hp] at hk
        simp only [Option.map_eq_some'] at hk
        rcases hk with ⟨k2, hk2, rfl⟩
        rw [n1n2_scan]
        simp only [hp, if_false]
        rw [ih (containersUpdate cs i) k2 hk2]
        simp [List.take, List.foldl]

/-- C6: for a sorted intersection list containing the designated hit (the
first entry with the hit's object reference and a float-equal t, at index
k), the n1 and n2 of prepare_computations_for_intersections are the
refractive indices on top of the currently-entered stack replayed over the
prefix before that entry and over the prefix including it respectively (1.0
on an empty stack, built into containersTop). -/
theorem c6_prepare_n1n2 (xs : List Intersection) (self : Intersection) (ray : Ray)
    (comps : Computations) (k : ℕ)
    (hsorted : xs.Sorted fun a b => a.t ≤ b.t)
    (hk : firstHitIdx self.objRef self.t xs = some k)
    (hprep : self.prepare_computations_for_intersections ray xs = some comps) :
    comps.n1 = containersTop (replayStack (xs.take k)) ∧
    comps.n2 = containersTop (replayStack (xs.take (k + 1))) := by
  unfold Intersection.prepare_computations_for_intersections at hprep
  rcases hnv : self.obj.normal_at (ray.position self.t) with _ | nv
  · rw [hnv] at hprep; simp at hprep
  · rw [hnv] at hprep
    simp only [Option.map_some] at hprep
    have h := n1n2_scan_eq self.objRef self.t xs [] k hk
    apply Option.some.inj at hprep
    subst hprep
    unfold replayStack
    constructor
    · simpa using congrArg Prod.fst h
    · simpa using congrArg Prod.snd h

/-- Witness for C6: the nested-glass list xsGlass with designated hit at
index 1 (entering the inner plane): n1 is the outer plane's 1.5, n2 the
inner plane's 2. -/
theorem c6_prepare_n1n2_witness :
    compsGlass.n1 = containersTop (replayStack (xsGlass.take 1)) ∧
    compsGlass.n2 = containersTop (replayStack (xsGlass.take 2)) := by
  have hsorted : xsGlass.Sorted (fun a b => a.t ≤ b.t) := by
    norm_num [xsGlass, List.sorted_cons]
  have hk : firstHitIdx hitGlass.objRef hitGlass.t xsGlass = some 1 := by
    norm_num [xsGlass, hitGlass, firstHitIdx, float_equal, EPSILON]
  have hprep : hitGlass.prepare_computations_for_intersections rayUp5 xsGlass
      = some compsGlass := by
    unfold Intersection.prepare_computations_for_intersections
    have hnorm : hitGlass.obj.normal_at (rayUp5.position hitGlass.t)
        = some ⟨0, 1, 0, 0⟩ := by
      norm_num [hitGlass, glassPlaneB, Object.normal_at, Object.world_to_object,
        Object.local_normal_at, Object.normal_to_world, Object.world_transformation,
        Object.core, Matrix4.inv_one, Matrix4.apply_one, Matrix4.transpose,
        Matrix.transpose_one, plane_local_normal_at, Tuple.vector, Tuple.normalize,
        Tuple.magnitude]
    rw [hnorm]
    simp only [Option.map_some', Option.some.injEq]
    have hdot : Tuple.dot ⟨0, 1, 0, 0⟩ (-rayUp5.direction) < 0 := by
      norm_num [rayUp5, Tuple.dot, Tuple.vector, Neg.neg, Tuple.neg]
    rw [if_pos hdot]
    have hscan : n1n2_scan xsGlass [] hitGlass.objRef hitGlass.t = (3 / 2, 2) := by
      norm_num [xsGlass, hitGlass, n1n2_scan, containersUpdate, containersTop,
        float_equal, EPSILON, glassPlaneA, glassPlaneB, Object.material, Object.core]
    rw [hscan]
    norm_num [compsGlass, hitGlass, rayUp5, glassPlaneB, Ray.position, Tuple.point,
      Tuple.vector, Tuple.reflect, Tuple.dot, tuple_add_eval, tuple_sub_eval,
      tuple_neg_eval, tuple_smul_eval, EPSILON]
  exact c6_prepare_n1n2 xsGlass hitGlass rayUp5 compsGlass 1 hsorted hk hprep

/-- C8: lighting is ambient + diffuse + specular, where ambient (the pattern
or flat color, Hadamard light intensity, times the ambient scalar) is always
included; diffuse and specular are black whenever the normalized
light-vector dot normal is negative or the point is in shadow; specular is
additionally black unless reflect dot eye is positive.  The default material
under a white light at (0,0,-10), eye (0,0,-1), point origin, normal
(0,0,-1), unshadowed, yields (1.9, 1.9, 1.9). -/
theorem c8_lighting_phong :
    (∀ (m : Material) (object : Object) (light : PointLight)
        (point eye_vector normal_vector : Tuple) (in_shadow : Bool),
        m.lighting object light point eye_vector normal_vector in_shadow =
          (let color := match m.pattern with
            | some pattern => pattern.color_at_object object point
            | none => m.color
          let effective_color := color * light.intensity
          let light_vector := (light.position - point).normalize
          let ambient := effective_color * m.ambient
          let light_dot_normal := light_vector.dot normal_vector
          let diffuse :=
            if light_dot_normal < 0 ∨ in_shadow = true then Color.black
            else effective_color * m.diffuse * light_dot_normal
          let reflect_dot_eye := ((-light_vector).reflect normal_vector).dot eye_vector
          let specular :=
            if light_dot_normal < 0 ∨ in_shadow = true ∨ ¬0 < reflect_dot_eye then
              Color.black
            else light.intensity * m.specular * Real.rpow reflect_dot_eye m.shininess
          ambient + diffuse + specular)) ∧
    Material.default.lighting sphereUnit ⟨Tuple.point 0 0 (-10), Color.white⟩
        (Tuple.point 0 0 0) (Tuple.vector 0 0 (-1)) (Tuple.vector 0 0 (-1)) false
      = ⟨19 / 10, 19 / 10, 19 / 10⟩ := by
  constructor
  · intro m object light point eye_vector normal_vector in_shadow
    unfold Material.lighting
    by_cases h1 :
      0 ≤ ((light.position - point).normalize.dot normal_vector) ∧ in_shadow = false
    · have h1' :
        ¬((light.position - point).normalize.dot normal_vector < 0 ∨ in_shadow = true) := by
        push_neg
        exact ⟨h1.1, by simp [h1.2]⟩
      by_cases h2 :
        0 < ((-(light.position - point).normalize).reflect normal_vector).dot eye_vector
      · simp only [h1, if_true, if_neg h1']
        simp [h2, not_lt.mpr h1.1]
      · simp only [h1, if_true, if_neg h1']
        simp [h2, not_lt.mpr h1.1]
    · have h1' :
        (light.position - point).normalize.dot normal_vector < 0 ∨ in_shadow = true := by
        rcases not_and_or.mp h1 with h | h
        · exact Or.inl (not_le.mp h)
        · exact Or.inr (by simpa using h)
      simp only [h1, if_false, if_pos h1']
      rcases h1' with h | h <;> simp [h]
  · unfold Material.lighting
    have hsqrt : Real.sqrt 100 = 10 := by
      rw [show (100 : ℝ) = 10 ^ 2 by norm_num]
      exact Real.sqrt_sq (by norm_num)
    norm_num [Material.default, Tuple.point, Tuple.vector, tuple_sub_eval,
      tuple_neg_eval, tuple_smul_eval, tuple_add_eval, Tuple.normalize,
      Tuple.magnitude, Tuple.dot, Tuple.reflect, color_mul_eval, color_smul_eval,
      color_add_eval, Color.white, hsqrt, Real.one_rpow, Color.black]

theorem check_axis_empty_fin (o : ℝ) (d : Fp) :
    Bounds.check_axis (.fin o) d .inf .ninf =
      if d.isInfinite then (Fp.nan, Fp.nan) else (Fp.ninf, Fp.inf) := by
  cases d with
  | nan =>
      simp [Bounds.check_axis, Fp.sub, Fp.abs, Fp.ge, Fp.le, Fp.mul, Fp.gt, Fp.lt,
        Fp.isInfinite]
  | inf =>
      simp [Bounds.check_axis, Fp.sub, Fp.abs, Fp.ge, Fp.le, Fp.div, Fp.gt, Fp.lt,
        Fp.isInfinite]
  | ninf =>
      simp [Bounds.check_axis, Fp.sub, Fp.abs, Fp.ge, Fp.le, Fp.div, Fp.gt, Fp.lt,
        Fp.isInfinite]
  | fin x =>
      simp only [Bounds.check_axis, Fp.sub, Fp.isInfinite, if_false]
      by_cases hg : (Fp.fin x).abs.ge (.fin (1 / 10 ^ 10)) = true
      · rw [if_pos hg]
        by_cases hx : x < 0
        · simp [Fp.div, hx, Fp.gt, Fp.lt]
        · have hx0 : ¬x = 0 := by
            intro h0
            rw [Fp.abs, Fp.ge, Fp.le] at hg
            simp [h0] at hg
            norm_num at hg
          simp [Fp.div, hx, hx0, Fp.gt, Fp.lt]
      · rw [if_neg hg]
        simp [Fp.mul, Fp.gt, Fp.lt]

/-- C10 (amended): the empty (inverted-infinity) bounds report a hit for
every ray with finite origin components whose direction components are not
all infinite (each axis slab degenerates to the full line after the swap),
and an empty group returns no intersections only because its child list is
empty: its bounds pre-check passes for every exact-real ray. -/
theorem c10_empty_bounds_intersects :
    (∀ ray : FpRay, ray.origin.x.isFinite → ray.origin.y.isFinite →
      ray.origin.z.isFinite →
      ¬(ray.direction.x.isInfinite = true ∧ ray.direction.y.isInfinite = true
          ∧ ray.direction.z.isInfinite = true) →
      Bounds.empty.intersects ray = true) ∧
    (∀ (core : ShapeCore) (r : Ray),
      (Object.bounds (Object.group core [])).intersects r.toFp = true ∧
      Object.local_intersect (Object.group core []) r = []) := by
  have main : ∀ ray : FpRay, ray.origin.x.isFinite → ray.origin.y.isFinite →
      ray.origin.z.isFinite →
      ¬(ray.direction.x.isInfinite = true ∧ ray.direction.y.isInfinite = true
          ∧ ray.direction.z.isInfinite = true) →
      Bounds.empty.intersects ray = true := by
    rintro ray ⟨ox, hox⟩ ⟨oy, hoy⟩ ⟨oz, hoz⟩ hdir
    unfold Bounds.intersects Bounds.empty
    rw [hox, hoy, hoz]
    simp only [check_axis_empty_fin]
    cases hdx : ray.direction.x.isInfinite <;>
      cases hdy : ray.direction.y.isInfinite <;>
        cases hdz : ray.direction.z.isInfinite <;>
          simp_all [Fp.max, Fp.min, Fp.le]
  refine ⟨main, ?_⟩
  intro core r
  have hb : Object.bounds (Object.group core []) = Bounds.empty := by
    simp [Object.bounds]
  have hi : (Object.bounds (Object.group core [])).intersects r.toFp = true := by
    rw [hb]
    apply main
    · exact ⟨r.origin.x, rfl⟩
    · exact ⟨r.origin.y, rfl⟩
    · exact ⟨r.origin.z, rfl⟩
    · simp [Ray.toFp, Tuple.toFp, Fp.isInfinite]
  refine ⟨hi, ?_⟩
  rw [Object.local_intersect, hi]
  simp [Object.intersect_list, sort_floats]

/-- Counterexample for C10 as frozen: the finite-origin ray whose direction
components are all +infinity makes every axis slab come out as (NaN, NaN),
so the NaN-ignoring max/min chain leaves NaN and the final comparison is
false: the empty bounds are not reported as hit by this ray. -/
theorem c10_counterexample :
    Bounds.empty.intersects
      ⟨⟨.fin 0, .fin 0, .fin 0⟩, ⟨.inf, .inf, .inf⟩⟩ = false := by
  simp [Bounds.empty, Bounds.intersects, Bounds.check_axis, Fp.sub, Fp.abs, Fp.ge,
    Fp.le, Fp.div, Fp.gt, Fp.lt, Fp.max, Fp.min]

/-- Witness for C10: the ray from (0,0,-5) along +z (all components finite)
does hit the empty bounds. -/
theorem c10_empty_bounds_intersects_witness :
    Bounds.empty.intersects
      ⟨⟨.fin 0, .fin 0, .fin (-5)⟩, ⟨.fin 0, .fin 0, .fin 1⟩⟩ = true :=
  c10_empty_bounds_intersects.1 _ ⟨0, rfl⟩ ⟨0, rfl⟩ ⟨-5, rfl⟩
    (by simp [Fp.isInfinite])

theorem sphere_ts_rayZ : sphere_local_intersect rayZ = [4, 6] := by
  have h4 : Real.sqrt 4 = 2 := by
    rw [show (4 : ℝ) = 2 ^ 2 by norm_num]
    exact Real.sqrt_sq (by norm_num)
  norm_num [sphere_local_intersect, rayZ, Tuple.point, Tuple.vector,
    tuple_sub_eval, Tuple.dot, h4]

theorem sphereUnit_intersect_rayZ : sphereUnit.intersect rayZ = [4, 6] := by
  rw [Object.intersect]
  simp only [sphereUnit, Object.transformation, Object.core, Matrix4.inv_one,
    Ray.transform_one]
  rw [Object.local_intersect]
  exact sphere_ts_rayZ

theorem groupWithSphere_bounds :
    Object.bounds groupWithSphere =
      ⟨⟨.fin (-1), .fin (-1), .fin (-1)⟩, ⟨.fin 1, .fin 1, .fin 1⟩⟩ := by
  rw [groupWithSphere, Object.bounds]
  simp only [List.attach, List.attachWith, List.pmap, List.foldl]
  rw [show Object.bounds sphereUnit =
    ⟨⟨.fin (-1), .fin (-1), .fin (-1)⟩, ⟨.fin 1, .fin 1, .fin 1⟩⟩ by
      rw [sphereUnit, Object.bounds]]
  simp only [sphereUnit, Object.transformation, Object.core]
  rw [Bounds.transform]
  norm_num [Fp.isInfinite, Fp.toReal, Tuple.point, Matrix4.apply_one, Tuple.toFp,
    Bounds.add_point, Bounds.merge, Fp.min, Fp.max, Bounds.empty, List.foldl,
    min_def, max_def]

theorem unit_bounds_intersects_rayZ :
    Bounds.intersects
      ⟨⟨.fin (-1), .fin (-1), .fin (-1)⟩, ⟨.fin 1, .fin 1, .fin 1⟩⟩ rayZ.toFp
      = true := by
  norm_num [Bounds.intersects, Bounds.check_axis, rayZ, Ray.toFp, Tuple.toFp,
    Tuple.point, Tuple.vector, Fp.sub, Fp.abs, Fp.ge, Fp.le, Fp.div, Fp.mul,
    Fp.gt, Fp.lt, Fp.max, Fp.min]

theorem groupWithSphere_intersect_rayZ :
    groupWithSphere.intersect rayZ = [4, 6] := by
  rw [Object.intersect]
  simp only [groupWithSphere, Object.transformation, Object.core, Matrix4.inv_one,
    Ray.transform_one]
  rw [Object.local_intersect]
  rw [show Object.group ⟨1, 1, Material.default⟩ [sphereUnit] = groupWithSphere
    from rfl]
  rw [groupWithSphere_bounds, unit_bounds_intersects_rayZ]
  simp only [if_true]
  rw [Object.intersect_list, Object.intersect_list, sphereUnit_intersect_rayZ]
  norm_num [sort_floats, List.insertionSort, List.orderedInsert]

theorem worldGroup_intersect_rayZ :
    worldGroup.intersect rayZ =
      [⟨4, [0], groupWithSphere⟩, ⟨6, [0], groupWithSphere⟩] := by
  rw [World.intersect]
  simp only [worldGroup, List.enum]
  norm_num [List.flatMap, groupWithSphere_intersect_rayZ, sort_by_t,
    List.insertionSort, List.orderedInsert]

/-- C1 exhibit (the claim fails on the code): in a world whose object graph
contains a group, World::intersect tags every produced Intersection with the
top-level group itself, the hit is group-tagged, and color_at reaches the
Group::local_normal_at panic branch (modelled none). -/
theorem c1_group_tagged_hit_panics :
    (∀ i ∈ worldGroup.intersect rayZ, i.obj.isGroup = true) ∧
    Intersection.hit (worldGroup.intersect rayZ)
      = some ⟨4, [0], groupWithSphere⟩ ∧
    worldGroup.color_at rayZ = none := by
  refine ⟨?_, ?_, ?_⟩
  · intro i hi
    rw [worldGroup_intersect_rayZ] at hi
    fin_cases hi <;> rfl
  · rw [worldGroup_intersect_rayZ]
    rw [Intersection.hit, List.find?_cons_of_pos _ (by norm_num)]
  · have hhit : Intersection.hit (worldGroup.intersect rayZ)
        = some ⟨4, [0], groupWithSphere⟩ := by
      rw [worldGroup_intersect_rayZ]
      rw [Intersection.hit, List.find?_cons_of_pos _ (by norm_num)]
    rw [World.color_at]
    rw [World.color_at_internal, hhit]
    have hnone : Object.normal_at groupWithSphere (Ray.position rayZ (4 : ℝ))
        = none := by
      rw [Object.normal_at]
      rw [show Object.local_normal_at groupWithSphere
          (groupWithSphere.world_to_object (Ray.position rayZ (4 : ℝ))) = none
        from rfl]
      rfl
    simp [Intersection.prepare_computations,
      Intersection.prepare_computations_for_intersections, hnone]

/-- C2 (amended): World::intersect is exactly the ascending-by-t sort of the
concatenation, over the objects in order, of each object's own intersect
t-values tagged with that top-level object. -/
theorem c2_world_intersect_sorted_perm (w : World) (ray : Ray) :
    List.Sorted (fun a b : Intersection => a.t ≤ b.t) (w.intersect ray) ∧
    (w.intersect ray).Perm ((w.objects.enum).flatMap fun p =>
      (p.2.intersect ray).map fun t => ⟨t, [p.1], p.2⟩) := by
  have ht : IsTotal Intersection (fun a b => a.t ≤ b.t) :=
    ⟨fun a b => le_total a.t b.t⟩
  have htr : IsTrans Intersection (fun a b => a.t ≤ b.t) :=
    ⟨fun _ _ _ => le_trans⟩
  constructor
  · rw [World.intersect, sort_by_t]
    exact List.sorted_insertionSort _ _
  · rw [World.intersect, sort_by_t]
    exact List.perm_insertionSort _ _

/-- Counterexample for C2 as frozen: on the world containing a group,
World::intersect does not equal the sorted concatenation of each object's
intersect_with_object results — the latter are child-tagged (the sphere at
path [0,0]), the former group-tagged (path [0]). -/
theorem c2_counterexample :
    ¬(worldGroup.intersect rayZ
        = sort_by_t ((worldGroup.objects.enum).flatMap fun p =>
            p.2.intersect_with_object [p.1] rayZ)) := by
  have hwo : Object.intersect_with_object groupWithSphere [0] rayZ
      = [⟨4, [0, 0], sphereUnit⟩, ⟨6, [0, 0], sphereUnit⟩] := by
    rw [show groupWithSphere
        = Object.group ⟨1, 1, Material.default⟩ [sphereUnit] from rfl]
    rw [Object.intersect_with_object]
    simp only [Object.core, Matrix4.inv_one, Ray.transform_one]
    rw [show Object.bounds (Object.group ⟨1, 1, Material.default⟩ [sphereUnit])
        = ⟨⟨.fin (-1), .fin (-1), .fin (-1)⟩, ⟨.fin 1, .fin 1, .fin 1⟩⟩ from
      groupWithSphere_bounds]
    rw [unit_bounds_intersects_rayZ]
    simp only [if_true]
    rw [Object.intersect_with_object_list, Object.intersect_with_object_list]
    rw [show sphereUnit = Object.sphere ⟨1, 1, Material.default⟩ from rfl]
    rw [Object.intersect_with_object]
    rw [show (Object.sphere ⟨1, 1, Material.default⟩).intersect rayZ = [4, 6] from
      sphereUnit_intersect_rayZ]
    · norm_num [sort_by_t, List.insertionSort, List.orderedInsert]
    · exact fun _ _ h => Object.noConfusion h
  intro h
  rw [worldGroup_intersect_rayZ] at h
  simp only [worldGroup, List.enum] at h
  rw [show (List.enumFrom 0 [groupWithSphere]) = [(0, groupWithSphere)] from rfl]
      at h
  simp only [List.flatMap, List.map, List.flatten, List.append_nil] at h
  rw [hwo] at h
  norm_num [sort_by_t, List.insertionSort, List.orderedInsert,
    Intersection.mk.injEq] at h

theorem consistentUnder_iff (pw : Matrix4) (o : Object) :
    consistentUnder pw o ↔
      (o.world_transformation = pw * o.transformation
        ∧ consistentChildren o.world_transformation o.childrenOf) := by
  cases o with
  | group c cs => rw [consistentUnder]; exact Iff.rfl
  | sphere c =>
      rw [consistentUnder]
      · simp [Object.childrenOf, consistentChildren]
      · exact fun _ _ h => Object.noConfusion h
  | plane c =>
      rw [consistentUnder]
      · simp [Object.childrenOf, consistentChildren]
      · exact fun _ _ h => Object.noConfusion h
  | cube c =>
      rw [consistentUnder]
      · simp [Object.childrenOf, consistentChildren]
      · exact fun _ _ h => Object.noConfusion h
  | cylinder c p =>
      rw [consistentUnder]
      · simp [Object.childrenOf, consistentChildren]
      · exact fun _ _ h => Object.noConfusion h
  | cone c p =>
      rw [consistentUnder]
      · simp [Object.childrenOf, consistentChildren]
      · exact fun _ _ h => Object.noConfusion h

theorem consistentChildren_append (pw : Matrix4) (as bs : List Object) :
    consistentChildren pw (as ++ bs) ↔
      consistentChildren pw as ∧ consistentChildren pw bs := by
  induction as with
  | nil => simp [consistentChildren]
  | cons c rest ih =>
      rw [List.cons_append, consistentChildren, consistentChildren, ih]
      tauto

theorem consistentChildren_modifyNth (pw : Matrix4) (f : Object → Object)
    (hf : ∀ c, consistentUnder pw c → consistentUnder pw (f c)) :
    ∀ (i : ℕ) (cs : List Object), consistentChildren pw cs →
      consistentChildren pw (modifyNth f i cs) := by
  intro i cs
  induction cs generalizing i with
  | nil => intro h; simpa [modifyNth] using h
  | cons c rest ih =>
      intro h
      rw [consistentChildren] at h
      match i with
      | 0 => exact ⟨hf c h.1, h.2⟩
      | n + 1 => exact ⟨h.1, ih n h.2⟩

mutual

theorem consistentUnder_update_transforms (o : Object) (pw t : Matrix4) :
    consistentUnder pw (o.update_transforms t (pw * t)) := by
  cases o with
  | group c cs =>
      rw [Object.update_transforms, consistentUnder]
      exact ⟨rfl, consistentChildren_propagate cs (pw * t)⟩
  | sphere c =>
      rw [Object.update_transforms, consistentUnder]
      · rfl
      · exact fun _ _ h => Object.noConfusion h
  | plane c =>
      rw [Object.update_transforms, consistentUnder]
      · rfl
      · exact fun _ _ h => Object.noConfusion h
  | cube c =>
      rw [Object.update_transforms, consistentUnder]
      · rfl
      · exact fun _ _ h => Object.noConfusion h
  | cylinder c p =>
      rw [Object.update_transforms, consistentUnder]
      · rfl
      · exact fun _ _ h => Object.noConfusion h
  | cone c p =>
      rw [Object.update_transforms, consistentUnder]
      · rfl
      · exact fun _ _ h => Object.noConfusion h

theorem consistentChildren_propagate (cs : List Object) (w : Matrix4) :
    consistentChildren w
      (Object.propagate_world_transform_to_group_children cs w) := by
  cases cs with
  | nil =>
      rw [Object.propagate_world_transform_to_group_children]
      exact trivial
  | cons c rest =>
      rw [Object.propagate_world_transform_to_group_children, consistentChildren]
      exact ⟨consistentUnder_update_transforms c w c.transformation,
        consistentChildren_propagate rest w⟩

end

theorem add_child_consistent_aux (n : ℕ) :
    (∀ (o : Object) (pw : Matrix4), 3 * o.size ≤ n →
        consistentUnder pw o → consistentUnder pw (Group.regrow_child o pw)) ∧
    (∀ (selfT pw : Matrix4) (children : List Object) (child : Object),
        3 * child.size + 1 ≤ n → consistentChildren (pw * selfT) children →
        consistentChildren (pw * selfT) (Group.add_child selfT children child pw)) ∧
    (∀ (selfT pw : Matrix4) (acc gcs : List Object),
        3 * sizeList gcs + 2 ≤ n → consistentChildren (pw * selfT) acc →
        consistentChildren (pw * selfT) (Group.add_child_each selfT acc gcs pw)) := by
  induction n using Nat.strong_induction_on with
  | _ n ih =>
      refine ⟨?_, ?_, ?_⟩
      · intro o pw hn ho
        cases o with
        | group ccore gchildren =>
            rw [Group.regrow_child]
            rw [consistentUnder] at ho ⊢
            refine ⟨ho.1, ?_⟩
            have hsz : 3 * sizeList gchildren + 2 < n := by
              simp only [Object.size] at hn
              omega
            have he := (ih _ hsz).2.2 ccore.transformation pw [] gchildren
              (le_refl _) (by rw [consistentChildren]; exact trivial)
            rwa [← ho.1] at he
        | sphere c =>
            rw [Group.regrow_child]
            · exact ho
            · exact fun _ _ h => Object.noConfusion h
        | plane c =>
            rw [Group.regrow_child]
            · exact ho
            · exact fun _ _ h => Object.noConfusion h
        | cube c =>
            rw [Group.regrow_child]
            · exact ho
            · exact fun _ _ h => Object.noConfusion h
        | cylinder c p =>
            rw [Group.regrow_child]
            · exact ho
            · exact fun _ _ h => Object.noConfusion h
        | cone c p =>
            rw [Group.regrow_child]
            · exact ho
            · exact fun _ _ h => Object.noConfusion h
      · intro selfT pw children child hn h
        rw [Group.add_child]
        rw [consistentChildren_append]
        refine ⟨h, ?_⟩
        rw [consistentChildren, consistentChildren]
        refine ⟨?_, trivial⟩
        have hup : consistentUnder (pw * selfT)
            (child.set_world_transform (pw * selfT * child.transformation)) := by
          rw [Object.set_world_transform]
          exact consistentUnder_update_transforms child (pw * selfT)
            child.transformation
        have hm : 3 * child.size < n := by omega
        have hb : 3 * (child.set_world_transform
            (pw * selfT * child.transformation)).size ≤ 3 * child.size := by
          rw [size_set_world_transform]
        exact (ih _ hm).1 _ (pw * selfT) hb hup
      · intro selfT pw acc gcs hn h
        cases gcs with
        | nil => rw [Group.add_child_each]; exact h
        | cons gc rest =>
            rw [Group.add_child_each]
            have hgc := Object.size_pos gc
            have hm1 : 3 * gc.size + 1 < n := by
              simp only [sizeList] at hn
              omega
            have hm2 : 3 * sizeList rest + 2 < n := by
              simp only [sizeList] at hn
              omega
            have h1 := (ih _ hm1).2.1 selfT pw acc gc (le_refl _) h
            exact (ih _ hm2).2.2 selfT pw _ rest (le_refl _) h1

theorem consistentChildren_add_child (selfT pw : Matrix4) (children : List Object)
    (child : Object) (h : consistentChildren (pw * selfT) children) :
    consistentChildren (pw * selfT) (Group.add_child selfT children child pw) :=
  (add_child_consistent_aux (3 * child.size + 1)).2.1 selfT pw children child
    (le_refl _) h

theorem consistentUnder_set_transform_at :
    ∀ (path : List ℕ) (m pw : Matrix4) (o : Object), consistentUnder pw o →
      consistentUnder pw (set_transform_at path m pw o) := by
  intro path
  induction path with
  | nil =>
      intro m pw o _
      rw [set_transform_at]
      exact consistentUnder_update_transforms o pw m
  | cons i rest ih =>
      intro m pw o ho
      cases o with
      | group c cs =>
          rw [set_transform_at]
          rw [consistentUnder] at ho ⊢
          refine ⟨ho.1, ?_⟩
          exact consistentChildren_modifyNth c.world_transformation _
            (fun ch hch => ih m c.world_transformation ch hch) i cs ho.2
      | sphere c =>
          rw [set_transform_at]
          · exact ho
          · exact fun _ _ h => Object.noConfusion h
      | plane c =>
          rw [set_transform_at]
          · exact ho
          · exact fun _ _ h => Object.noConfusion h
      | cube c =>
          rw [set_transform_at]
          · exact ho
          · exact fun _ _ h => Object.noConfusion h
      | cylinder c p =>
          rw [set_transform_at]
          · exact ho
          · exact fun _ _ h => Object.noConfusion h
      | cone c p =>
          rw [set_transform_at]
          · exact ho
          · exact fun _ _ h => Object.noConfusion h

theorem consistentUnder_add_child_at :
    ∀ (path : List ℕ) (newChild : Object) (pw : Matrix4) (o : Object),
      consistentUnder pw o →
      consistentUnder pw (add_child_at path newChild pw o) := by
  intro path
  induction path with
  | nil =>
      intro newChild pw o ho
      cases o with
      | group c cs =>
          rw [add_child_at]
          rw [consistentUnder] at ho ⊢
          refine ⟨ho.1, ?_⟩
          have hc : consistentChildren (pw * c.transformation) cs := by
            rw [← ho.1]; exact ho.2
          have := consistentChildren_add_child c.transformation pw cs newChild hc
          rwa [← ho.1] at this
      | sphere c =>
          rw [add_child_at]
          · exact ho
          · exact fun _ _ h => Object.noConfusion h
      | plane c =>
          rw [add_child_at]
          · exact ho
          · exact fun _ _ h => Object.noConfusion h
      | cube c =>
          rw [add_child_at]
          · exact ho
          · exact fun _ _ h => Object.noConfusion h
      | cylinder c p =>
          rw [add_child_at]
          · exact ho
          · exact fun _ _ h => Object.noConfusion h
      | cone c p =>
          rw [add_child_at]
          · exact ho
          · exact fun _ _ h => Object.noConfusion h
  | cons i rest ih =>
      intro newChild pw o ho
      cases o with
      | group c cs =>
          rw [add_child_at]
          rw [consistentUnder] at ho ⊢
          refine ⟨ho.1, ?_⟩
          exact consistentChildren_modifyNth c.world_transformation _
            (fun ch hch => ih newChild c.world_transformation ch hch) i cs ho.2
      | sphere c =>
          rw [add_child_at]
          · exact ho
          · exact fun _ _ h => Object.noConfusion h
      | plane c =>
          rw [add_child_at]
          · exact ho
          · exact fun _ _ h => Object.noConfusion h
      | cube c =>
          rw [add_child_at]
          · exact ho
          · exact fun _ _ h => Object.noConfusion h
      | cylinder c p =>
          rw [add_child_at]
          · exact ho
          · exact fun _ _ h => Object.noConfusion h
      | cone c p =>
          rw [add_child_at]
          · exact ho
          · exact fun _ _ h => Object.noConfusion h

/-- C3: the cached-world-transform invariant (every node's cached world
transform is its parent's cached world transform times its own local
transform, identity at a root) is preserved by every sequence of
local-transform writes and child insertions at any depth. -/
theorem c3_consistent_after_ops (ops : List SceneOp) (o : Object)
    (h : consistent o) : consistent (applyOps o ops) := by
  induction ops generalizing o with
  | nil => exact h
  | cons op rest ih =>
      rw [applyOps, List.foldl_cons]
      apply ih
      cases op with
      | setTransform path m => exact consistentUnder_set_transform_at path m 1 o h
      | addChild path child => exact consistentUnder_add_child_at path child 1 o h

/-- Witness for C3: the group-with-sphere tree is consistent, and stays
consistent after a transform write on the root, a transform write on the
nested sphere, and the insertion of a fresh sphere. -/
theorem c3_consistent_after_ops_witness :
    consistent groupWithSphere ∧
    consistent (applyOps groupWithSphere
      [SceneOp.setTransform [] (Matrix4.scale 2 2 2),
       SceneOp.setTransform [0] (Matrix4.translate 5 0 0),
       SceneOp.addChild [] sphereUnit]) := by
  have hcons : consistent groupWithSphere := by
    rw [consistent, groupWithSphere, consistentUnder]
    refine ⟨by rw [one_mul], ?_⟩
    rw [consistentChildren, sphereUnit, consistentUnder]
    · exact ⟨by rw [one_mul]; rfl, by rw [consistentChildren]; exact trivial⟩
    · exact fun _ _ h => Object.noConfusion h
  exact ⟨hcons, c3_consistent_after_ops _ _ hcons⟩


theorem Matrix4.translate_inv (x y z : ℝ) :
    (Matrix4.translate x y z)⁻¹ = Matrix4.translate (-x) (-y) (-z) := by
  apply Matrix.inv_eq_right_inv
  ext i j
  fin_cases i <;> fin_cases j <;>
    simp +decide [Matrix4.translate, Matrix.mul_apply, Fin.sum_univ_four,
      Matrix.one_apply, Matrix.vecHead, Matrix.vecTail]

theorem Matrix4.translate_apply (x y z : ℝ) (t : Tuple) :
    (Matrix4.translate x y z).apply t =
      ⟨t.x + x * t.w, t.y + y * t.w, t.z + z * t.w, t.w⟩ := by
  cases t
  simp +decide [Matrix4.translate, Matrix4.apply, Matrix.vecHead, Matrix.vecTail]

theorem Matrix4.translate_transpose_apply (x y z : ℝ) (t : Tuple) :
    ((Matrix4.translate x y z).transpose).apply t =
      ⟨t.x, t.y, t.z, x * t.x + y * t.y + z * t.z + t.w⟩ := by
  cases t
  simp +decide [Matrix4.translate, Matrix4.transpose, Matrix4.apply,
    Matrix.transpose_apply, Matrix.vecHead, Matrix.vecTail]

theorem lowerPlane_intersect_vertical (oy dy : ℝ) (h : ¬|dy| < EPSILON) :
    lowerPlane.intersect ⟨⟨0, oy, 0, 1⟩, ⟨0, dy, 0, 0⟩⟩ = [-(oy + 1) / dy] := by
  rw [Object.intersect]
  simp only [lowerPlane, Object.transformation, Object.core, Matrix4.translate_inv,
    Ray.transform, Matrix4.translate_apply]
  rw [Object.local_intersect]
  norm_num [plane_local_intersect, h]

theorem upperPlane_intersect_vertical (oy dy : ℝ) (h : ¬|dy| < EPSILON) :
    upperPlane.intersect ⟨⟨0, oy, 0, 1⟩, ⟨0, dy, 0, 0⟩⟩ = [-(oy - 1) / dy] := by
  rw [Object.intersect]
  simp only [upperPlane, Object.transformation, Object.core, Matrix4.translate_inv,
    Ray.transform, Matrix4.translate_apply]
  rw [Object.local_intersect]
  norm_num [plane_local_intersect, h]
  ring

theorem mirrorWorld_intersect_vertical (oy dy : ℝ) (h : ¬|dy| < EPSILON) :
    mirrorWorld.intersect ⟨⟨0, oy, 0, 1⟩, ⟨0, dy, 0, 0⟩⟩ =
      sort_by_t [⟨-(oy + 1) / dy, [0], lowerPlane⟩,
        ⟨-(oy - 1) / dy, [1], upperPlane⟩] := by
  rw [World.intersect]
  simp only [mirrorWorld, List.enum]
  norm_num [List.flatMap, lowerPlane_intersect_vertical oy dy h,
    upperPlane_intersect_vertical oy dy h]

theorem mirror_intersect_ray0 :
    mirrorWorld.intersect mirrorRay =
      [⟨-1, [0], lowerPlane⟩, ⟨1, [1], upperPlane⟩] := by
  rw [show mirrorRay = (⟨⟨0, 0, 0, 1⟩, ⟨0, 1, 0, 0⟩⟩ : Ray) from rfl]
  rw [mirrorWorld_intersect_vertical 0 1 (by norm_num [EPSILON])]
  norm_num [sort_by_t, List.insertionSort, List.orderedInsert]

theorem mirror_intersect_down :
    mirrorWorld.intersect mirrorRayDown =
      [⟨-EPSILON, [1], upperPlane⟩, ⟨2 - EPSILON, [0], lowerPlane⟩] := by
  rw [show mirrorRayDown = (⟨⟨0, 1 - EPSILON, 0, 1⟩, ⟨0, -1, 0, 0⟩⟩ : Ray) from rfl]
  rw [mirrorWorld_intersect_vertical (1 - EPSILON) (-1) (by norm_num [EPSILON])]
  norm_num [sort_by_t, List.insertionSort, List.orderedInsert, EPSILON]

theorem mirror_intersect_up :
    mirrorWorld.intersect mirrorRayUp =
      [⟨-EPSILON, [0], lowerPlane⟩, ⟨2 - EPSILON, [1], upperPlane⟩] := by
  rw [show mirrorRayUp = (⟨⟨0, -1 + EPSILON, 0, 1⟩, ⟨0, 1, 0, 0⟩⟩ : Ray) from rfl]
  rw [mirrorWorld_intersect_vertical (-1 + EPSILON) 1 (by norm_num [EPSILON])]
  norm_num [sort_by_t, List.insertionSort, List.orderedInsert, EPSILON]

theorem mirror_hit_ray0 :
    Intersection.hit (mirrorWorld.intersect mirrorRay)
      = some ⟨1, [1], upperPlane⟩ := by
  rw [mirror_intersect_ray0, Intersection.hit,
    List.find?_cons_of_neg _ (by norm_num),
    List.find?_cons_of_pos _ (by norm_num)]

theorem mirror_hit_down :
    Intersection.hit (mirrorWorld.intersect mirrorRayDown)
      = some ⟨2 - EPSILON, [0], lowerPlane⟩ := by
  rw [mirror_intersect_down, Intersection.hit,
    List.find?_cons_of_neg _ (by norm_num [EPSILON]),
    List.find?_cons_of_pos _ (by norm_num [EPSILON])]

theorem mirror_hit_up :
    Intersection.hit (mirrorWorld.intersect mirrorRayUp)
      = some ⟨2 - EPSILON, [1], upperPlane⟩ := by
  rw [mirror_intersect_up, Intersection.hit,
    List.find?_cons_of_neg _ (by norm_num [EPSILON]),
    List.find?_cons_of_pos _ (by norm_num [EPSILON])]


theorem upperPlane_normal_any (p : Tuple) :
    upperPlane.normal_at p = some ⟨0, 1, 0, 0⟩ := by
  rw [show upperPlane = Object.plane
      ⟨Matrix4.translate 0 1 0, Matrix4.translate 0 1 0, mirrorMaterial⟩ from rfl]
  rw [Object.normal_at, Object.local_normal_at]
  simp only [Option.map_some']
  rw [Object.normal_to_world]
  norm_num [Object.world_transformation, Object.core, Matrix4.translate_inv,
    Matrix4.translate_transpose_apply, plane_local_normal_at, Tuple.vector,
    Tuple.normalize, Tuple.magnitude, Real.sqrt_one]

theorem lowerPlane_normal_any (p : Tuple) :
    lowerPlane.normal_at p = some ⟨0, 1, 0, 0⟩ := by
  rw [show lowerPlane = Object.plane
      ⟨Matrix4.translate 0 (-1) 0, Matrix4.translate 0 (-1) 0, mirrorMaterial⟩ from rfl]
  rw [Object.normal_at, Object.local_normal_at]
  simp only [Option.map_some']
  rw [Object.normal_to_world]
  norm_num [Object.world_transformation, Object.core, Matrix4.translate_inv,
    Matrix4.translate_transpose_apply, plane_local_normal_at, Tuple.vector,
    Tuple.normalize, Tuple.magnitude, Real.sqrt_one]

theorem prep_upper (r : Ray) (t : ℝ) (hpos : r.position t = ⟨0, 1, 0, 1⟩)
    (hdir : r.direction = ⟨0, 1, 0, 0⟩) :
    Intersection.prepare_computations ⟨t, [1], upperPlane⟩ r = some (compsUp t) := by
  rw [Intersection.prepare_computations,
    Intersection.prepare_computations_for_intersections]
  simp only [upperPlane_normal_any, Option.map_some', Option.some.injEq, hpos, hdir]
  norm_num [compsUp, Tuple.dot, Tuple.reflect, tuple_neg_eval, tuple_sub_eval,
    tuple_add_eval, tuple_smul_eval, n1n2_scan, containersTop, containersUpdate,
    float_equal, List.getLast?, Object.material, Object.core, upperPlane,
    mirrorMaterial, EPSILON]

theorem prep_lower (r : Ray) (t : ℝ) (hpos : r.position t = ⟨0, -1, 0, 1⟩)
    (hdir : r.direction = ⟨0, -1, 0, 0⟩) :
    Intersection.prepare_computations ⟨t, [0], lowerPlane⟩ r = some (compsDn t) := by
  rw [Intersection.prepare_computations,
    Intersection.prepare_computations_for_intersections]
  simp only [lowerPlane_normal_any, Option.map_some', Option.some.injEq, hpos, hdir]
  norm_num [compsDn, Tuple.dot, Tuple.reflect, tuple_neg_eval, tuple_sub_eval,
    tuple_add_eval, tuple_smul_eval, n1n2_scan, containersTop, containersUpdate,
    float_equal, List.getLast?, Object.material, Object.core, lowerPlane,
    mirrorMaterial, EPSILON]

theorem reflected_zero (w : World) (comps : Computations) :
    w.reflected_color_internal comps 0 = some Color.black := by
  rw [World.reflected_color_internal]

theorem refracted_zero (w : World) (comps : Computations) :
    w.refracted_color_internal comps 0 = some Color.black := by
  rw [World.refracted_color_internal]


theorem is_shadowed_eval (w : World) (light : PointLight)
    (hl : w.light_source = some light) (point : Tuple) :
    w.is_shadowed point =
      match Intersection.hit
          (w.intersect ⟨point, (light.position - point).normalize⟩) with
      | some h => decide (h.t < (light.position - point).magnitude)
      | none => false := by
  rw [World.is_shadowed, hl]

theorem mirror_shadow_up :
    mirrorWorld.is_shadowed ⟨0, 1 - EPSILON, 0, 1⟩ = false := by
  rw [is_shadowed_eval mirrorWorld ⟨Tuple.point 0 0 0, Color.white⟩ rfl]
  have hsub : (Tuple.point 0 0 0 : Tuple) - ⟨0, 1 - EPSILON, 0, 1⟩
      = ⟨0, -(1 - EPSILON), 0, 0⟩ := by
    rw [Tuple.point, tuple_sub_eval]; norm_num
  rw [hsub]
  have hmag : Tuple.magnitude ⟨0, -(1 - EPSILON), 0, 0⟩ = 1 - EPSILON := by
    rw [Tuple.magnitude]
    rw [show (0 : ℝ) ^ 2 + (-(1 - EPSILON)) ^ 2 + 0 ^ 2 + 0 ^ 2
      = (1 - EPSILON) ^ 2 by ring]
    exact Real.sqrt_sq (by norm_num [EPSILON])
  have hnorm : Tuple.normalize ⟨0, -(1 - EPSILON), 0, 0⟩ = ⟨0, -1, 0, 0⟩ := by
    rw [Tuple.normalize, hmag]
    norm_num [EPSILON]
  rw [hnorm, hmag]
  rw [show (⟨⟨0, 1 - EPSILON, 0, 1⟩, ⟨0, -1, 0, 0⟩⟩ : Ray) = mirrorRayDown from rfl]
  rw [mirror_hit_down]
  norm_num [EPSILON]

theorem mirror_shadow_dn :
    mirrorWorld.is_shadowed ⟨0, -1 + EPSILON, 0, 1⟩ = false := by
  rw [is_shadowed_eval mirrorWorld ⟨Tuple.point 0 0 0, Color.white⟩ rfl]
  have hsub : (Tuple.point 0 0 0 : Tuple) - ⟨0, -1 + EPSILON, 0, 1⟩
      = ⟨0, 1 - EPSILON, 0, 0⟩ := by
    rw [Tuple.point, tuple_sub_eval]; norm_num; ring
  rw [hsub]
  have hmag : Tuple.magnitude ⟨0, 1 - EPSILON, 0, 0⟩ = 1 - EPSILON := by
    rw [Tuple.magnitude]
    rw [show (0 : ℝ) ^ 2 + (1 - EPSILON) ^ 2 + 0 ^ 2 + 0 ^ 2
      = (1 - EPSILON) ^ 2 by ring]
    exact Real.sqrt_sq (by norm_num [EPSILON])
  have hnorm : Tuple.normalize ⟨0, 1 - EPSILON, 0, 0⟩ = ⟨0, 1, 0, 0⟩ := by
    rw [Tuple.normalize, hmag]
    norm_num [EPSILON]
  rw [hnorm, hmag]
  rw [show (⟨⟨0, -1 + EPSILON, 0, 1⟩, ⟨0, 1, 0, 0⟩⟩ : Ray) = mirrorRayUp from rfl]
  rw [mirror_hit_up]
  norm_num [EPSILON]

theorem mirror_lighting_up :
    mirrorMaterial.lighting upperPlane ⟨Tuple.point 0 0 0, Color.white⟩
      ⟨0, 1, 0, 1⟩ ⟨0, -1, 0, 0⟩ ⟨0, -1, 0, 0⟩ false
      = ⟨19 / 10, 19 / 10, 19 / 10⟩ := by
  unfold Material.lighting
  norm_num [mirrorMaterial, Tuple.point, tuple_sub_eval, tuple_neg_eval,
    tuple_smul_eval, tuple_add_eval, Tuple.normalize, Tuple.magnitude, Tuple.dot,
    Tuple.reflect, color_mul_eval, color_smul_eval, color_add_eval, Color.white,
    Real.sqrt_one, Real.one_rpow, Color.black]

theorem mirror_lighting_dn :
    mirrorMaterial.lighting lowerPlane ⟨Tuple.point 0 0 0, Color.white⟩
      ⟨0, -1, 0, 1⟩ ⟨0, 1, 0, 0⟩ ⟨0, 1, 0, 0⟩ false
      = ⟨19 / 10, 19 / 10, 19 / 10⟩ := by
  unfold Material.lighting
  norm_num [mirrorMaterial, Tuple.point, tuple_sub_eval, tuple_neg_eval,
    tuple_smul_eval, tuple_add_eval, Tuple.normalize, Tuple.magnitude, Tuple.dot,
    Tuple.reflect, color_mul_eval, color_smul_eval, color_add_eval, Color.white,
    Real.sqrt_one, Real.one_rpow, Color.black]


theorem mirror_refracted_up (t : ℝ) (n : ℕ) :
    mirrorWorld.refracted_color_internal (compsUp t) n = some Color.black := by
  cases n with
  | zero => exact refracted_zero _ _
  | succ n =>
      rw [World.refracted_color_internal]
      norm_num [compsUp, upperPlane, Object.material, Object.core, mirrorMaterial]

theorem mirror_refracted_dn (t : ℝ) (n : ℕ) :
    mirrorWorld.refracted_color_internal (compsDn t) n = some Color.black := by
  cases n with
  | zero => exact refracted_zero _ _
  | succ n =>
      rw [World.refracted_color_internal]
      norm_num [compsDn, lowerPlane, Object.material, Object.core, mirrorMaterial]

theorem mirror_shade_up (t : ℝ) (n : ℕ) :
    mirrorWorld.shade_hit_internal (compsUp t) n =
      (mirrorWorld.reflected_color_internal (compsUp t) n).map
        (fun rc => (⟨19 / 10 + rc.red, 19 / 10 + rc.green, 19 / 10 + rc.blue⟩
          : Color)) := by
  rw [World.shade_hit_internal]
  rw [show mirrorWorld.light_source = some ⟨Tuple.point 0 0 0, Color.white⟩ from rfl]
  have h1 : mirrorMaterial.reflectivity = 1 := rfl
  have h2 : mirrorMaterial.transparency = 0 := rfl
  have h3 : upperPlane.material = mirrorMaterial := rfl
  cases hrc : mirrorWorld.reflected_color_internal (compsUp t) n with
  | none => simp [hrc, mirror_refracted_up]
  | some rc =>
      simp only [hrc, mirror_refracted_up, Option.some_bind, Option.map_some']
      simp only [compsUp, h3, mirror_shadow_up, mirror_lighting_up, h1, h2]
      norm_num [color_add_eval, Color.black]

theorem mirror_shade_dn (t : ℝ) (n : ℕ) :
    mirrorWorld.shade_hit_internal (compsDn t) n =
      (mirrorWorld.reflected_color_internal (compsDn t) n).map
        (fun rc => (⟨19 / 10 + rc.red, 19 / 10 + rc.green, 19 / 10 + rc.blue⟩
          : Color)) := by
  rw [World.shade_hit_internal]
  rw [show mirrorWorld.light_source = some ⟨Tuple.point 0 0 0, Color.white⟩ from rfl]
  have h1 : mirrorMaterial.reflectivity = 1 := rfl
  have h2 : mirrorMaterial.transparency = 0 := rfl
  have h3 : lowerPlane.material = mirrorMaterial := rfl
  cases hrc : mirrorWorld.reflected_color_internal (compsDn t) n with
  | none => simp [hrc, mirror_refracted_dn]
  | some rc =>
      simp only [hrc, mirror_refracted_dn, Option.some_bind, Option.map_some']
      simp only [compsDn, h3, mirror_shadow_dn, mirror_lighting_dn, h1, h2]
      norm_num [color_add_eval, Color.black]

theorem mirror_reflected_up (t : ℝ) (n : ℕ) :
    mirrorWorld.reflected_color_internal (compsUp t) (n + 1) =
      (mirrorWorld.color_at_internal mirrorRayDown n).map
        (fun c : Color => c * (1 : ℝ)) := by
  rw [World.reflected_color_internal]
  have h0 : ¬(compsUp t).object.material.reflectivity = 0 := by
    norm_num [compsUp, upperPlane, Object.material, Object.core, mirrorMaterial]
  rw [if_neg h0]
  rw [show (⟨(compsUp t).over_point, (compsUp t).reflect_vector⟩ : Ray)
    = mirrorRayDown from rfl]
  rw [show (compsUp t).object.material.reflectivity = 1 from rfl]

theorem mirror_reflected_dn (t : ℝ) (n : ℕ) :
    mirrorWorld.reflected_color_internal (compsDn t) (n + 1) =
      (mirrorWorld.color_at_internal mirrorRayUp n).map
        (fun c : Color => c * (1 : ℝ)) := by
  rw [World.reflected_color_internal]
  have h0 : ¬(compsDn t).object.material.reflectivity = 0 := by
    norm_num [compsDn, lowerPlane, Object.material, Object.core, mirrorMaterial]
  rw [if_neg h0]
  rw [show (⟨(compsDn t).over_point, (compsDn t).reflect_vector⟩ : Ray)
    = mirrorRayUp from rfl]
  rw [show (compsDn t).object.material.reflectivity = 1 from rfl]

theorem mirror_color_updown (n : ℕ) :
    mirrorWorld.color_at_internal mirrorRayUp n
        = some ⟨19 / 10 * (n + 1), 19 / 10 * (n + 1), 19 / 10 * (n + 1)⟩ ∧
    mirrorWorld.color_at_internal mirrorRayDown n
        = some ⟨19 / 10 * (n + 1), 19 / 10 * (n + 1), 19 / 10 * (n + 1)⟩ := by
  have hprepU := prep_upper mirrorRayUp (2 - EPSILON)
    (by norm_num [mirrorRayUp, Ray.position, tuple_add_eval, tuple_smul_eval]) rfl
  have hprepD := prep_lower mirrorRayDown (2 - EPSILON)
    (by norm_num [mirrorRayDown, Ray.position, tuple_add_eval, tuple_smul_eval]) rfl
  induction n with
  | zero =>
      constructor
      · rw [World.color_at_internal, mirror_hit_up]
        simp only [hprepU, Option.some_bind]
        rw [mirror_shade_up, reflected_zero]
        norm_num [Color.black]
      · rw [World.color_at_internal, mirror_hit_down]
        simp only [hprepD, Option.some_bind]
        rw [mirror_shade_dn, reflected_zero]
        norm_num [Color.black]
  | succ n ih =>
      constructor
      · rw [World.color_at_internal, mirror_hit_up]
        simp only [hprepU, Option.some_bind]
        rw [mirror_shade_up, mirror_reflected_up, ih.2]
        simp only [Option.map_some', color_smul_eval]
        norm_num
        ring
      · rw [World.color_at_internal, mirror_hit_down]
        simp only [hprepD, Option.some_bind]
        rw [mirror_shade_dn, mirror_reflected_dn, ih.1]
        simp only [Option.map_some', color_smul_eval]
        norm_num
        ring

theorem mirror_color_entry :
    mirrorWorld.color_at mirrorRay = some ⟨57 / 5, 57 / 5, 57 / 5⟩ := by
  rw [World.color_at]
  rw [show DEFAULT_MAX_DEPTH = 4 + 1 from rfl]
  rw [World.color_at_internal, mirror_hit_ray0]
  have hprep := prep_upper mirrorRay 1
    (by norm_num [mirrorRay, Ray.position, Tuple.point, Tuple.vector,
      tuple_add_eval, tuple_smul_eval]) rfl
  simp only [hprep, Option.some_bind]
  rw [mirror_shade_up, mirror_reflected_up, (mirror_color_updown 4).2]
  simp only [Option.map_some', color_smul_eval]
  norm_num


/-- C5: the reflection/refraction recursion is cut by the explicit remaining
counter: at depth 0 both reflected_color and refracted_color return black,
they also return black whenever the material's reflectivity respectively
transparency is zero, a reflective bounce at depth n + 1 recurses into
color_at at depth n (the counter strictly decreases), the public color_at
enters at the default depth 5, and the two facing fully reflective mirrors
(planes at y = -1 and y = +1, light at the origin, upward ray from the
origin) terminate with the finite color (57/5, 57/5, 57/5). -/
theorem c5_color_at_terminates :
    (∀ (w : World) (comps : Computations),
      w.reflected_color_internal comps 0 = some Color.black ∧
      w.refracted_color_internal comps 0 = some Color.black) ∧
    (∀ (w : World) (comps : Computations) (n : ℕ),
      comps.object.material.reflectivity = 0 →
      w.reflected_color_internal comps n = some Color.black) ∧
    (∀ (w : World) (comps : Computations) (n : ℕ),
      comps.object.material.transparency = 0 →
      w.refracted_color_internal comps n = some Color.black) ∧
    (∀ (w : World) (comps : Computations) (n : ℕ),
      w.reflected_color_internal comps (n + 1) =
        if comps.object.material.reflectivity = 0 then some Color.black
        else (w.color_at_internal ⟨comps.over_point, comps.reflect_vector⟩ n).map
          fun color => color * comps.object.material.reflectivity) ∧
    (∀ (w : World) (ray : Ray), w.color_at ray = w.color_at_internal ray 5) ∧
    mirrorWorld.color_at mirrorRay = some ⟨57 / 5, 57 / 5, 57 / 5⟩ := by
  refine ⟨fun w comps => ⟨reflected_zero w comps, refracted_zero w comps⟩,
    ?_, ?_, ?_, fun w ray => rfl, mirror_color_entry⟩
  · intro w comps n h
    cases n with
    | zero => exact reflected_zero w comps
    | succ n => rw [World.reflected_color_internal, if_pos h]
  · intro w comps n h
    cases n with
    | zero => exact refracted_zero w comps
    | succ n => rw [World.refracted_color_internal, if_pos h]
  · intro w comps n
    rw [World.reflected_color_internal]

/-- Witness for C5: the glassPlaneB computations record has reflectivity 0
and the upper-mirror record has transparency 0, and at depth 3 the
zero-coefficient cutoffs both yield black. -/
theorem c5_color_at_terminates_witness :
    compsGlass.object.material.reflectivity = 0 ∧
    mirrorWorld.reflected_color_internal compsGlass 3 = some Color.black ∧
    (compsUp 1).object.material.transparency = 0 ∧
    mirrorWorld.refracted_color_internal (compsUp 1) 3 = some Color.black := by
  have h1 : compsGlass.object.material.reflectivity = 0 := rfl
  have h2 : (compsUp 1).object.material.transparency = 0 := rfl
  exact ⟨h1, c5_color_at_terminates.2.1 mirrorWorld compsGlass 3 h1, h2,
    c5_color_at_terminates.2.2.1 mirrorWorld (compsUp 1) 3 h2⟩

end

end RayTrace
